import Mathlib

/-!
Verification of the `smarticles` particle-life simulation.

The repository's advanced iteration consists of `src/simulation.rs` (the
engine) and `src/ui.rs` (the `Smarticles` UI struct holding the seed codec),
sharing a `SharedState` declared in that iteration's crate root.  That crate
root is not present under `src/`; the constants and the `SharedState` shape
it declares are modelled below from the earlier iteration in `src/main.rs`
(which declares the same constants under the `POWER` naming) and from the
specification.

Scalars handled by the save/restore codec and the seeding scheme are modelled
as exact rationals; the integrator and the force kernel, which use `sqrt`,
are modelled over the reals.
-/

namespace Smarticles

/-- Min number of particle classes (`MIN_CLASSES` in `src/main.rs`). -/
def MIN_CLASSES : ℕ := 3

/-- Max number of particle classes (`MAX_CLASSES` in `src/main.rs`). -/
def MAX_CLASSES : ℕ := 8

/-- Maximal particle count per class (`MAX_PARTICLE_COUNT` in `src/main.rs`). -/
def MAX_PARTICLE_COUNT : ℕ := 1200

/-- Lowest randomized particle count (`RANDOM_MIN_PARTICLE_COUNT`). -/
def RANDOM_MIN_PARTICLE_COUNT : ℕ := 200

/-- Highest randomized particle count (`RANDOM_MAX_PARTICLE_COUNT`). -/
def RANDOM_MAX_PARTICLE_COUNT : ℕ := 1000

/-- Default world radius (`DEFAULT_WORLD_RADIUS = 900.`). -/
def DEFAULT_WORLD_RADIUS : ℚ := 900

/-- Min world radius (`MIN_WORLD_RADIUS = 200.`). -/
def MIN_WORLD_RADIUS : ℚ := 200

/-- Max world radius (`MAX_WORLD_RADIUS = 1200.`). -/
def MAX_WORLD_RADIUS : ℚ := 1200

/-- Default force of a parameter-matrix entry (`DEFAULT_POWER = 0.` in the
earlier iteration, renamed `DEFAULT_FORCE`). -/
def DEFAULT_FORCE : ℚ := 0

/-- Max force (`MAX_POWER = 100.`, renamed `MAX_FORCE`). -/
def MAX_FORCE : ℚ := 100

/-- Min force (`MIN_POWER = -MAX_POWER`, renamed `MIN_FORCE`). -/
def MIN_FORCE : ℚ := -100

/-- Default action radius of a parameter-matrix entry (`DEFAULT_RADIUS = 80.`). -/
def DEFAULT_RADIUS : ℚ := 80

/-- Min action radius (`MIN_RADIUS = RAMP_START_RADIUS = 30.`). -/
def MIN_RADIUS : ℚ := 30

/-- Max action radius (`MAX_RADIUS = 100.`). -/
def MAX_RADIUS : ℚ := 100

/-- The engine run state (`SimulationState` in `src/simulation.rs`). -/
inductive SimulationState where
  | Stopped
  | Paused
  | Running
deriving DecidableEq

/-- The cross-thread state shared by the UI and the engine.  Modelled from the
spec: `SharedState` is declared in the missing crate root; its fields are the
ones both `src/ui.rs` and `src/simulation.rs` access through `self.shared`.
The parameter matrix is stored as the two scalar tables of its `Param`
entries; `particle_counts` is the fixed `[usize; MAX_CLASSES]` array, read
and written only at indices below `MAX_CLASSES`. -/
structure SharedQ where
  simulation_state : SimulationState
  world_radius : ℚ
  class_count : ℕ
  particle_counts : ℕ → ℕ
  param_force : ℕ → ℕ → ℚ
  param_radius : ℕ → ℕ → ℚ

/-- Truncation toward zero, the rounding used by Rust `as` casts from floats
to integers. -/
def ratTrunc (q : ℚ) : ℤ :=
  if 0 ≤ q then ⌊q⌋ else -⌊-q⌋

/-- Rust `f32 as u16`: saturating truncation into `[0, 65535]`. -/
def castU16 (q : ℚ) : ℕ :=
  (max 0 (min 65535 (ratTrunc q))).toNat

/-- Rust `f32 as i8`: saturating truncation into `[-128, 127]`. -/
def castI8 (q : ℚ) : ℤ :=
  max (-128) (min 127 (ratTrunc q))

/-- Rust `f32 as usize`: saturating truncation, nonnegative. -/
def castUsize (q : ℚ) : ℕ :=
  (ratTrunc q).toNat

/-- Two's-complement byte of an `i8` value in `[-128, 127]`. -/
def byteOfI8 (z : ℤ) : ℕ :=
  if 0 ≤ z then z.toNat else (z + 256).toNat

/-- Value of a byte reinterpreted as an `i8` (`read_i8`). -/
def i8val (b : ℕ) : ℤ :=
  if b < 128 then (b : ℤ) else (b : ℤ) - 256

/-- Little-endian bytes of a `u16` value (`write_u16::<LE>`). -/
def u16LE (n : ℕ) : List ℕ :=
  [n % 256, n / 256 % 256]

/-- Sequential byte-reader position semantics of `byteorder` on a `&[u8]`:
`read_u8` consumes one byte, or fails without consuming when none is left. -/
def readU8 (bs : List ℕ) (p : ℕ) : Option ℕ × ℕ :=
  if p + 1 ≤ bs.length then (some (bs.getD p 0), p + 1) else (none, p)

/-- `read_u16::<LE>` consumes two bytes little-endian, or fails without
consuming when fewer than two bytes are left. -/
def readU16 (bs : List ℕ) (p : ℕ) : Option ℕ × ℕ :=
  if p + 2 ≤ bs.length then (some (bs.getD p 0 + 256 * bs.getD (p + 1) 0), p + 2)
  else (none, p)

/-- `read_i8` consumes one byte as a signed value, or fails without
consuming. -/
def readI8 (bs : List ℕ) (p : ℕ) : Option ℤ × ℕ :=
  if p + 1 ≤ bs.length then (some (i8val (bs.getD p 0)), p + 1) else (none, p)

/-- The per-class particle-count loop of `Smarticles::import`: each of the
`n` remaining array slots gets `read_u16().unwrap_or(0)`. -/
def readCounts (bs : List ℕ) : ℕ → ℕ → List ℕ × ℕ
  | 0, p => ([], p)
  | n + 1, p =>
    let r := readU16 bs p
    let rest := readCounts bs n r.2
    ((r.1.getD 0) :: rest.1, rest.2)

/-- The row-major parameter-matrix loop of `Smarticles::import`: each of the
`n` remaining entries gets `read_i8().unwrap_or(0)` for force, then the same
for radius. -/
def readEntries (bs : List ℕ) : ℕ → ℕ → List (ℤ × ℤ) × ℕ
  | 0, p => ([], p)
  | n + 1, p =>
    let f := readI8 bs p
    let r := readI8 bs f.2
    let rest := readEntries bs n r.2
    ((f.1.getD 0, r.1.getD 0) :: rest.1, rest.2)

/-- `Smarticles::import` (`src/ui.rs` lines 233-252): sequentially reads
world radius (default `DEFAULT_WORLD_RADIUS`), class count (default
`MAX_CLASSES`), the `MAX_CLASSES` particle counts (default 0), then the
`MAX_CLASSES * MAX_CLASSES` matrix entries row-major (force then radius, each
defaulting to 0). -/
def importBytes (bs : List ℕ) (s : SharedQ) : SharedQ :=
  let wr := readU16 bs 0
  let cc := readU8 bs wr.2
  let cnts := readCounts bs MAX_CLASSES cc.2
  let ents := readEntries bs (MAX_CLASSES * MAX_CLASSES) cnts.2
  { s with
    world_radius := ((wr.1.getD 900 : ℕ) : ℚ)
    class_count := cc.1.getD MAX_CLASSES
    particle_counts := fun i =>
      if i < MAX_CLASSES then (cnts.1.getD i 0) else s.particle_counts i
    param_force := fun i j =>
      if i < MAX_CLASSES ∧ j < MAX_CLASSES then
        ((ents.1.getD (MAX_CLASSES * i + j) (0, 0)).1 : ℚ)
      else s.param_force i j
    param_radius := fun i j =>
      if i < MAX_CLASSES ∧ j < MAX_CLASSES then
        ((ents.1.getD (MAX_CLASSES * i + j) (0, 0)).2 : ℚ)
      else s.param_radius i j }

/-- `Smarticles::export` (`src/ui.rs` lines 213-231), up to the final base64
encoding: the serialized byte vector, written as world radius `as u16` LE,
class count `as u8`, the `MAX_CLASSES` particle counts `as u16` LE, then the
matrix entries row-major with force and radius each `as i8`. -/
def exportBytes (s : SharedQ) : List ℕ :=
  u16LE (castU16 s.world_radius) ++
    [s.class_count % 256] ++
    ((List.range MAX_CLASSES).map fun i => s.particle_counts i % 65536).flatMap u16LE ++
    ((List.range (MAX_CLASSES * MAX_CLASSES)).map fun e =>
        (castI8 (s.param_force (e / MAX_CLASSES) (e % MAX_CLASSES)),
         castI8 (s.param_radius (e / MAX_CLASSES) (e % MAX_CLASSES)))).flatMap
      fun fr => [byteOfI8 fr.1, byteOfI8 fr.2]

/-- `Simulation::reset` (`src/simulation.rs` lines 207-220) restricted to the
shared state: stops the simulation, restores the default world radius, zeroes
every particle count, and restores the default force and radius in every one
of the `MAX_CLASSES * MAX_CLASSES` matrix entries.  The class count is not
touched.  (The particle-position table it also clears lives on the engine
side and is not part of the shared state serialized by `export`.) -/
def resetQ (s : SharedQ) : SharedQ :=
  { s with
    simulation_state := SimulationState.Stopped
    world_radius := DEFAULT_WORLD_RADIUS
    particle_counts := fun i => if i < MAX_CLASSES then 0 else s.particle_counts i
    param_force := fun i j =>
      if i < MAX_CLASSES ∧ j < MAX_CLASSES then DEFAULT_FORCE else s.param_force i j
    param_radius := fun i j =>
      if i < MAX_CLASSES ∧ j < MAX_CLASSES then DEFAULT_RADIUS else s.param_radius i j }

/-- Modelled from the spec: the initial `SharedState::new()` value declared in
the missing crate root — the documented default configuration (default world
radius, maximal class count, zero particle counts, default matrix entries,
stopped). -/
def defaultShared : SharedQ :=
  { simulation_state := SimulationState.Stopped
    world_radius := DEFAULT_WORLD_RADIUS
    class_count := MAX_CLASSES
    particle_counts := fun _ => 0
    param_force := fun _ _ => DEFAULT_FORCE
    param_radius := fun _ _ => DEFAULT_RADIUS }

/-- Modelled from the spec: the deterministic library functions used by
`Smarticles::apply_seed` that live outside the repository — `base64::decode`,
the std `DefaultHasher` text hash, the `SmallRng` `Open01` sample stream
(`sample s n` is the `n`-th draw of the generator seeded with `s`), and
`f32::powf`.  Each is an arbitrary pure function; the seeding claims hold for
every choice. -/
structure SeedLibs where
  b64decode : String → Option (List ℕ)
  hashU64 : String → ℕ
  sample : ℕ → ℕ → ℚ
  powf : ℚ → ℚ → ℚ

/-- Rust `f32::signum`: 1 for positive values and +0, -1 for negative
values. -/
def signumQ (q : ℚ) : ℚ :=
  if 0 ≤ q then 1 else -1

/-- The reshaped-random derivation of `Smarticles::apply_seed` (`src/ui.rs`
lines 167-183), with the `rand(min, max)` closure's successive `Open01` draws
indexed in program order: for each class `i` below the current class count,
one draw for the particle count, then for each `j` a draw for the force
(reshaped by `signum * abs^(1/1.25)`) and a draw for the radius (reshaped by
`^(1/1.1)`). -/
def randomize (L : SeedLibs) (sd : ℕ) (st : SharedQ) : SharedQ :=
  let cc := st.class_count
  let draw := fun (n : ℕ) (lo hi : ℚ) => lo + (hi - lo) * L.sample sd n
  { st with
    particle_counts := fun i =>
      if i < cc then
        castUsize (draw (i * (1 + 2 * cc)) (RANDOM_MIN_PARTICLE_COUNT : ℚ)
          (RANDOM_MAX_PARTICLE_COUNT : ℚ))
      else st.particle_counts i
    param_force := fun i j =>
      if i < cc ∧ j < cc then
        let pow := draw (i * (1 + 2 * cc) + 1 + 2 * j) MIN_FORCE MAX_FORCE
        signumQ pow * L.powf |pow| (4 / 5)
      else st.param_force i j
    param_radius := fun i j =>
      if i < cc ∧ j < cc then
        L.powf (draw (i * (1 + 2 * cc) + 2 + 2 * j) MIN_RADIUS MAX_RADIUS) (10 / 11)
      else st.param_radius i j }

/-- `Smarticles::apply_seed` (`src/ui.rs` lines 153-188).  An empty seed
draws from an entropy-seeded generator (the entropy value is an explicit
argument here); a seed starting with `'@'` whose remainder base64-decodes is
an exact binary restore; any other seed (including an `'@'` seed with
malformed base64) is hashed and drives the deterministic derivation.  The
trailing channel sends are presentation-side I/O and have no effect on the
state. -/
def applySeedQ (L : SeedLibs) (entropy : ℕ) (seed : String) (st : SharedQ) : SharedQ :=
  if seed = "" then randomize L entropy st
  else if seed.data.head? = some '@' then
    match L.b64decode (seed.drop 1) with
    | some bytes => importBytes bytes st
    | none => randomize L (L.hashU64 seed) st
  else randomize L (L.hashU64 seed) st

/-- The table indices `Simulation::move_particles` (`src/simulation.rs` lines
150-189) uses, checked against the allocated `[MAX_CLASSES]` and
`[MAX_CLASSES][MAX_PARTICLE_COUNT]` capacities, in loop order: for every
`c1, c2` below the class count, the accesses `param_matrix[(c1, c2)]`,
`particle_counts[c1]`, `particle_counts[c2]`, `particle_positions[(c1, p1)]`
and `particle_velocities[(c1, p1)]` for `p1` below `particle_counts[c1]`, and
`particle_positions[(c2, p2)]` for `p2` below `particle_counts[c2]`. -/
def moveInBoundsB (cc : ℕ) (counts : ℕ → ℕ) : Bool :=
  (List.range cc).all fun c1 =>
    (List.range cc).all fun c2 =>
      decide (c1 < MAX_CLASSES) && decide (c2 < MAX_CLASSES) &&
        ((List.range (counts c1)).all fun p1 => decide (p1 < MAX_PARTICLE_COUNT)) &&
        ((List.range (counts c2)).all fun p2 => decide (p2 < MAX_PARTICLE_COUNT))

/-- The table indices `Simulation::reset_particles` (`src/simulation.rs`
lines 191-197) uses: `particle_positions[(c, p)]` for every `c` below the
class count and `p` below `particle_counts[c]`. -/
def resetInBoundsB (cc : ℕ) (counts : ℕ → ℕ) : Bool :=
  (List.range cc).all fun c =>
    decide (c < MAX_CLASSES) &&
      ((List.range (counts c)).all fun p => decide (p < MAX_PARTICLE_COUNT))

/-! The engine (`src/simulation.rs`) works on `egui::Vec2` positions and
velocities; its float arithmetic, square roots included, is modelled over the
reals. -/

/-- A 2-D vector (`egui::Vec2`). -/
@[ext]
structure Vec2R where
  x : ℝ
  y : ℝ

instance : Zero Vec2R := ⟨⟨0, 0⟩⟩

instance : Add Vec2R := ⟨fun a b => ⟨a.x + b.x, a.y + b.y⟩⟩

instance : Sub Vec2R := ⟨fun a b => ⟨a.x - b.x, a.y - b.y⟩⟩

instance : Neg Vec2R := ⟨fun a => ⟨-a.x, -a.y⟩⟩

/-- Multiplication of a vector by a scalar on the right; `egui` allows the
scalar on either side, with the same componentwise meaning. -/
instance : HMul Vec2R ℝ Vec2R := ⟨fun v a => ⟨v.x * a, v.y * a⟩⟩

namespace Vec2R

@[simp] theorem zero_x : (0 : Vec2R).x = 0 := rfl

@[simp] theorem zero_y : (0 : Vec2R).y = 0 := rfl

@[simp] theorem add_x (a b : Vec2R) : (a + b).x = a.x + b.x := rfl

@[simp] theorem add_y (a b : Vec2R) : (a + b).y = a.y + b.y := rfl

@[simp] theorem sub_x (a b : Vec2R) : (a - b).x = a.x - b.x := rfl

@[simp] theorem sub_y (a b : Vec2R) : (a - b).y = a.y - b.y := rfl

@[simp] theorem neg_x (a : Vec2R) : (-a).x = -a.x := rfl

@[simp] theorem neg_y (a : Vec2R) : (-a).y = -a.y := rfl

@[simp] theorem smul_x (a : Vec2R) (c : ℝ) : (a * c).x = a.x * c := rfl

@[simp] theorem smul_y (a : Vec2R) (c : ℝ) : (a * c).y = a.y * c := rfl

/-- `Vec2::length`: the Euclidean norm. -/
noncomputable def length (v : Vec2R) : ℝ :=
  Real.sqrt (v.x ^ 2 + v.y ^ 2)

/-- `Vec2::normalized`: the vector divided by its length. -/
noncomputable def normalized (v : Vec2R) : Vec2R :=
  ⟨v.x / v.length, v.y / v.length⟩

/-- `Vec2::angled`: the unit vector at the given angle. -/
noncomputable def angled (t : ℝ) : Vec2R :=
  ⟨Real.cos t, Real.sin t⟩

end Vec2R

/-- Force scale (`POWER_FACTOR = 1. / 500.` in `src/main.rs`, renamed
`FORCE_FACTOR`). -/
noncomputable def FORCE_FACTOR : ℝ := 1 / 500

/-- Radius below which particles always repel (`RAMP_START_RADIUS =
MIN_RADIUS = 30.`). -/
noncomputable def RAMP_START_RADIUS : ℝ := 30

/-- Length of the mid-range force ramp (`RAMP_LENGTH = 10.`). -/
noncomputable def RAMP_LENGTH : ℝ := 10

/-- Close-range repulsion strength (`CLOSE_FORCE = 20. * FORCE_FACTOR`). -/
noncomputable def CLOSE_FORCE : ℝ := 20 * FORCE_FACTOR

/-- Border spring strength (`BORDER_FORCE = 10. * FORCE_FACTOR`). -/
noncomputable def BORDER_FORCE : ℝ := 10 * FORCE_FACTOR

/-- Velocity damping applied every tick (`DEFAULT_DAMPING_FACTOR = 0.4`). -/
noncomputable def DEFAULT_DAMPING_FACTOR : ℝ := 2 / 5

/-- Position integration scale (`POS_FACTOR = 40.`). -/
noncomputable def POS_FACTOR : ℝ := 40

/-- Radius of the spawn area (`SPAWN_AREA_RADIUS = 40.`). -/
noncomputable def SPAWN_AREA_RADIUS : ℝ := 40

/-- The fixed tick length `UPDATE_INTERVAL.as_secs_f32()` for a 30 ms
update interval. -/
noncomputable def DT : ℝ := 3 / 100

/-- `TAU`, the full circle. -/
noncomputable def TAU : ℝ := 2 * Real.pi

/-- `ramp_then_const` (`src/simulation.rs` lines 252-256): rises linearly
from 0 at `x = zero`, saturating to the constant
`2 * const_start / (zero + const_start)` at `x = zero + const_start`. -/
noncomputable def ramp_then_const (x zero const_start : ℝ) : ℝ :=
  (-|x - zero - const_start| + x - zero + const_start) / (zero + const_start)

noncomputable section

open scoped Classical

/-- The force kernel `get_partial_velocity` (`src/simulation.rs` lines
240-250; named `get_dv` in the earlier iteration): zero at distance zero and
out of range, configured force scaled by the mid-range ramp between
`RAMP_START_RADIUS` and the action radius, always-repulsive close force
below `RAMP_START_RADIUS`. -/
def get_dv (distance : Vec2R) (action_radius force : ℝ) : Vec2R :=
  let r := distance.length
  if RAMP_START_RADIUS < r ∧ r < action_radius then
    distance.normalized * force * ramp_then_const r RAMP_START_RADIUS RAMP_LENGTH
  else if 0 < r ∧ r ≤ RAMP_START_RADIUS then
    distance.normalized * CLOSE_FORCE * (r / RAMP_START_RADIUS - 1)
  else 0

/-- The engine state owned by the simulation thread: the shared configuration
plus the two `[MAX_CLASSES][MAX_PARTICLE_COUNT]` particle tables. -/
structure SimState where
  world_radius : ℝ
  class_count : ℕ
  particle_counts : ℕ → ℕ
  param_force : ℕ → ℕ → ℝ
  param_radius : ℕ → ℕ → ℝ
  pos : ℕ → ℕ → Vec2R
  vel : ℕ → ℕ → Vec2R

/-- The kernel accumulation of one particle `p1` of class `c1` over the
active particles of class `c2`, reading the acting positions from the
snapshot table `snap`: `dv += get_partial_velocity(other_pos - pos, radius,
force)` with `force = -param.force * FORCE_FACTOR` and
`radius = param.radius`. -/
def dvPairSnap (snap : ℕ → ℕ → Vec2R) (s : SimState) (c1 c2 p1 : ℕ) : Vec2R :=
  (List.range (s.particle_counts c2)).foldl
    (fun acc p2 =>
      acc + get_dv (snap c2 p2 - s.pos c1 p1) (s.param_radius c1 c2)
        (-s.param_force c1 c2 * FORCE_FACTOR))
    0

/-- The kernel accumulation reading the acting positions from the current
table, as `Simulation::move_particles` does. -/
def dvPair (s : SimState) (c1 c2 p1 : ℕ) : Vec2R :=
  dvPairSnap s.pos s c1 c2 p1

/-- The border spring: once the particle's distance from the center reaches
the world radius, an inward correction proportional to the excess distance is
added to `dv`. -/
def dvBorder (s : SimState) (c1 p1 : ℕ) (dv : Vec2R) : Vec2R :=
  let r := (s.pos c1 p1).length
  if s.world_radius ≤ r then
    dv + -(s.pos c1 p1).normalized * BORDER_FORCE * (r - s.world_radius)
  else dv

/-- The damped velocity `(vel + dv) * DEFAULT_DAMPING_FACTOR` of particle
`p1` after the `(c1, c2)` pair iteration, with `dv` read from `snap`. -/
def newVelSnap (snap : ℕ → ℕ → Vec2R) (s : SimState) (c1 c2 p1 : ℕ) : Vec2R :=
  (s.vel c1 p1 + dvBorder s c1 p1 (dvPairSnap snap s c1 c2 p1)) *
    DEFAULT_DAMPING_FACTOR

/-- The integrated position `pos + vel * POS_FACTOR * dt` of particle `p1`
after the `(c1, c2)` pair iteration, with `dv` read from `snap`. -/
def newPosSnap (dt : ℝ) (snap : ℕ → ℕ → Vec2R) (s : SimState) (c1 c2 p1 : ℕ) :
    Vec2R :=
  s.pos c1 p1 + newVelSnap snap s c1 c2 p1 * POS_FACTOR * dt

/-- A pair iteration reading the positions of the acting class `c2` from an
explicitly supplied snapshot table: every active particle `p1` of class `c1`
accumulates its contributions, then damps its velocity and integrates its
position; the new pairs are computed from the pre-pair tables and committed
afterwards. -/
def pairStepSnap (dt : ℝ) (snap : ℕ → ℕ → Vec2R) (s : SimState) (c1 c2 : ℕ) :
    SimState :=
  { s with
    pos := fun c p =>
      if c = c1 ∧ p < s.particle_counts c1 then newPosSnap dt snap s c1 c2 p
      else s.pos c p
    vel := fun c p =>
      if c = c1 ∧ p < s.particle_counts c1 then newVelSnap snap s c1 c2 p
      else s.vel c p }

/-- One `(c1, c2)` iteration of `Simulation::move_particles`: the acting
positions are read from the current table.  The updates of the `p1` loop are
computed from the pre-pair tables (`into_par_iter().map(..).collect()`) and
committed only afterwards, so within one pair iteration every read sees the
table as it stood when the pair's processing began. -/
def pairStep (dt : ℝ) (s : SimState) (c1 c2 : ℕ) : SimState :=
  pairStepSnap dt s.pos s c1 c2

/-- `Simulation::move_particles` (`src/simulation.rs` lines 150-189): the
pair iterations run in sequence for `c1` and `c2` over the active classes,
each committing its updates before the next one runs. -/
def move_particles (dt : ℝ) (s : SimState) : SimState :=
  (List.range s.class_count).foldl
    (fun s1 c1 => (List.range s.class_count).foldl
      (fun s2 c2 => pairStep dt s2 c1 c2) s1) s

/-- Modelled from the spec's snapshot requirement: a step in which every
force contribution reads the acting particles' positions from the table as it
stood at the start of the step ("read from last tick's state"). -/
def move_particles_step_snapshot (dt : ℝ) (s : SimState) : SimState :=
  (List.range s.class_count).foldl
    (fun s1 c1 => (List.range s.class_count).foldl
      (fun s2 c2 => pairStepSnap dt s.pos s2 c1 c2) s1) s

/-- A step in which every pair iteration reads the acting particles'
positions from the table as it stood when that pair's processing began. -/
def move_particles_pair_snapshot (dt : ℝ) (s : SimState) : SimState :=
  (List.range s.class_count).foldl
    (fun s1 c1 => (List.range s.class_count).foldl
      (fun s2 c2 => pairStepSnap dt s2.pos s2 c1 c2) s1) s

/-- `Simulation::reset_particles` (`src/simulation.rs` lines 191-197): zeroes
the positions of the active slots.  The velocity table is not touched. -/
def reset_particles (s : SimState) : SimState :=
  { s with
    pos := fun c p =>
      if c < s.class_count ∧ p < s.particle_counts c then 0 else s.pos c p }

/-- `Simulation::spawn` (`src/simulation.rs` lines 221-237): after
`reset_particles`, each active slot gets a fresh position
`SPAWN_AREA_RADIUS * Vec2::angled(TAU * a) * b` from two `Open01` draws
`a, b`; `rng c p` supplies the two draws the sequential `SmallRng` stream
yields for slot `(c, p)`.  No other field — in particular no velocity — is
written. -/
def spawn (rng : ℕ → ℕ → ℝ × ℝ) (s : SimState) : SimState :=
  let s1 := reset_particles s
  { s1 with
    pos := fun c p =>
      if c < s.class_count ∧ p < s.particle_counts c then
        Vec2R.angled (TAU * (rng c p).1) * SPAWN_AREA_RADIUS * (rng c p).2
      else s1.pos c p }

/-- A state with a single active particle: one active class, one active
slot, the particle at `(x, y)` with zero velocity, arbitrary parameter
tables. -/
def singleState (x y R : ℝ) (F Rd : ℕ → ℕ → ℝ) : SimState :=
  { world_radius := R
    class_count := 1
    particle_counts := fun _ => 1
    param_force := F
    param_radius := Rd
    pos := fun _ _ => ⟨x, y⟩
    vel := fun _ _ => 0 }

/-- Two active classes with one particle each: class 0 at the origin, class 1
at `(35, 0)`, zero velocities, every matrix entry at force -100 (so the
kernel is attractive with scaled force 1/5) and radius 80. -/
def cs1 : SimState :=
  { world_radius := 900
    class_count := 2
    particle_counts := fun c => if c < 2 then 1 else 0
    param_force := fun _ _ => -100
    param_radius := fun _ _ => 80
    pos := fun c _ => if c = 0 then ⟨0, 0⟩ else ⟨35, 0⟩
    vel := fun _ _ => 0 }

/-- A single active particle beyond the world radius moving outward fast:
position `(1000, 0)`, velocity `(1000, 0)`, world radius 900. -/
def cs8 : SimState :=
  { world_radius := 900
    class_count := 1
    particle_counts := fun _ => 1
    param_force := fun _ _ => 0
    param_radius := fun _ _ => 80
    pos := fun _ _ => ⟨1000, 0⟩
    vel := fun _ _ => ⟨1000, 0⟩ }

/-- A state whose only active particle has the nonzero velocity `(1, 0)`. -/
def cs6 : SimState :=
  { world_radius := 900
    class_count := 1
    particle_counts := fun _ => 1
    param_force := fun _ _ => 0
    param_radius := fun _ _ => 80
    pos := fun _ _ => 0
    vel := fun _ _ => ⟨1, 0⟩ }

/-- A fixed pair of `Open01` draws for every slot. -/
def rng6 : ℕ → ℕ → ℝ × ℝ := fun _ _ => (1 / 4, 1 / 2)

/-- The state of `cs1` after the pair iteration `(0, 0)` of one step (the
first pair of both the code's step and the snapshot-reading step, which
coincide on the first pair). -/
def c1s1 : SimState := pairStep DT cs1 0 0

/-- After the pairs `(0, 0)` and `(0, 1)` of the code's step. -/
def c1s2 : SimState := pairStep DT c1s1 0 1

/-- After the pairs `(0, 0)`, `(0, 1)` and `(1, 0)` of the code's step. -/
def c1s3 : SimState := pairStep DT c1s2 1 0

/-- The code's full step on `cs1`. -/
def c1s4 : SimState := pairStep DT c1s3 1 1

/-- After the pairs `(0, 0)` and `(0, 1)` of the snapshot-reading step. -/
def c1t2 : SimState := pairStepSnap DT cs1.pos c1s1 0 1

/-- After the pairs `(0, 0)`, `(0, 1)` and `(1, 0)` of the snapshot-reading
step. -/
def c1t3 : SimState := pairStepSnap DT cs1.pos c1t2 1 0

/-- The snapshot-reading full step on `cs1`. -/
def c1t4 : SimState := pairStepSnap DT cs1.pos c1t3 1 1

end

/-- An in-range configuration whose world radius `409/2 = 204.5` is not an
integer. -/
def cs2 : SharedQ :=
  { defaultShared with world_radius := 409 / 2 }

/-- A three-byte blob: world radius 900 little-endian, then class count 9 —
one more than `MAX_CLASSES`. -/
def blob9 : List ℕ :=
  [132, 3, 9]

/-- The byte vector `export` produces right after `reset`, as a function of
the class count (the one field `reset` leaves untouched): default world
radius `900 = [132, 3]` little-endian, the class-count byte, eight zero
particle counts, and 64 matrix entries of force byte 0 and radius byte 80. -/
def resetExportBytes (k : ℕ) : List ℕ :=
  132 :: 3 :: (k % 256) ::
    (List.replicate 16 0 ++ (List.range 64).flatMap fun _ => [0, 80])

/-- Input lengths that end exactly at a boundary between two consecutive
fields of the binary layout: before the world radius, before the class
count, between two of the 16 particle-count bytes read two at a time, or
anywhere in the byte-granular matrix region. -/
def fieldAligned (L : ℕ) : Prop :=
  L = 0 ∨ L = 2 ∨ (∃ k, k ≤ MAX_CLASSES ∧ L = 3 + 2 * k) ∨ (19 ≤ L ∧ L ≤ 147)

/-! Helper lemmas about the vector operations. -/

namespace Vec2R

theorem mul_real_zero (v : Vec2R) : v * (0 : ℝ) = 0 := by
  ext <;> simp

theorem sub_self_vec (v : Vec2R) : v - v = 0 := by
  ext <;> simp

theorem zero_add_vec (v : Vec2R) : (0 : Vec2R) + v = v := by
  ext <;> simp

theorem length_nonneg (v : Vec2R) : 0 ≤ v.length :=
  Real.sqrt_nonneg _

theorem length_zero_vec : (0 : Vec2R).length = 0 := by
  simp [length]

theorem length_axis (x : ℝ) : (Vec2R.mk x 0).length = |x| := by
  rw [length, show x ^ 2 + (0 : ℝ) ^ 2 = x ^ 2 by ring, Real.sqrt_sq_eq_abs]

theorem length_smul (v : Vec2R) (c : ℝ) : (v * c).length = v.length * |c| := by
  rw [length, length]
  have h : (v * c).x ^ 2 + (v * c).y ^ 2 = (v.x ^ 2 + v.y ^ 2) * c ^ 2 := by
    simp only [smul_x, smul_y]; ring
  rw [h, Real.sqrt_mul (by positivity), Real.sqrt_sq_eq_abs]

theorem length_normalized (v : Vec2R) (h : 0 < v.length) :
    v.normalized.length = 1 := by
  have hx : v.normalized = v * (1 / v.length) := by
    ext <;> simp [normalized] <;> ring
  rw [hx, length_smul, abs_of_pos (by positivity), mul_one_div,
    div_self (ne_of_gt h)]

theorem normalized_axis (x : ℝ) :
    (Vec2R.mk x 0).normalized = ⟨x / |x|, 0⟩ := by
  simp [normalized, length_axis]

end Vec2R

/-! Helper lemmas about the force kernel. -/

theorem get_dv_zero_vec (R F : ℝ) : get_dv 0 R F = 0 := by
  rw [get_dv]
  have h : (0 : Vec2R).length = 0 := Vec2R.length_zero_vec
  rw [if_neg, if_neg]
  · rintro ⟨h0, -⟩; rw [h] at h0; exact lt_irrefl _ h0
  · rintro ⟨h1, -⟩
    rw [h] at h1
    have : (0 : ℝ) < 30 := by norm_num
    simp only [RAMP_START_RADIUS] at h1
    linarith

theorem get_dv_mid (x R F : ℝ) (h1 : RAMP_START_RADIUS < |x|) (h2 : |x| < R) :
    get_dv ⟨x, 0⟩ R F =
      ⟨x / |x| * F * ramp_then_const |x| RAMP_START_RADIUS RAMP_LENGTH, 0⟩ := by
  rw [get_dv]
  simp only [Vec2R.length_axis]
  rw [if_pos ⟨h1, h2⟩, Vec2R.normalized_axis]
  ext <;> simp

theorem get_dv_close (x R F : ℝ) (h0 : 0 < |x|) (h1 : |x| ≤ RAMP_START_RADIUS) :
    get_dv ⟨x, 0⟩ R F =
      ⟨x / |x| * CLOSE_FORCE * (|x| / RAMP_START_RADIUS - 1), 0⟩ := by
  rw [get_dv]
  simp only [Vec2R.length_axis]
  rw [if_neg (fun hc => absurd h1 (not_le.mpr hc.1)), if_pos ⟨h0, h1⟩,
    Vec2R.normalized_axis]
  ext <;> simp

/-- C7: for every distance vector whose length is at least the action radius,
and for every force value, the force kernel returns the zero vector —
including at the minimum configurable action radius `MIN_RADIUS =
RAMP_START_RADIUS`. -/
theorem c7_kernel_zero_out_of_range (d : Vec2R) (R F : ℝ)
    (hmin : RAMP_START_RADIUS ≤ R) (hout : R ≤ d.length) :
    get_dv d R F = 0 := by
  rw [get_dv]
  rw [if_neg (fun hc => absurd hc.2 (not_lt.mpr hout))]
  by_cases h2 : 0 < d.length ∧ d.length ≤ RAMP_START_RADIUS
  · rw [if_pos h2]
    have he : d.length = RAMP_START_RADIUS :=
      le_antisymm h2.2 (le_trans hmin hout)
    have hz : d.length / RAMP_START_RADIUS - 1 = 0 := by
      rw [he]; simp [RAMP_START_RADIUS]
    rw [hz, Vec2R.mul_real_zero]
  · rw [if_neg h2]

/-- Witness for C7 at the concrete input: distance `(50, 0)` of length 50,
action radius exactly `RAMP_START_RADIUS = 30`, force -7. -/
theorem c7_witness :
    RAMP_START_RADIUS ≤ (30 : ℝ) ∧ (30 : ℝ) ≤ (Vec2R.mk 50 0).length ∧
      get_dv ⟨50, 0⟩ 30 (-7) = 0 := by
  have h1 : RAMP_START_RADIUS ≤ (30 : ℝ) := by rw [RAMP_START_RADIUS]
  have h2 : (30 : ℝ) ≤ (Vec2R.mk 50 0).length := by
    rw [Vec2R.length_axis]; norm_num
  exact ⟨h1, h2, c7_kernel_zero_out_of_range ⟨50, 0⟩ 30 (-7) h1 h2⟩

/-! The two regimes of the mid-range ramp. -/

theorem ramp_plateau (r : ℝ) (h : RAMP_START_RADIUS + RAMP_LENGTH ≤ r) :
    ramp_then_const r RAMP_START_RADIUS RAMP_LENGTH =
      2 * RAMP_LENGTH / (RAMP_START_RADIUS + RAMP_LENGTH) := by
  simp only [ramp_then_const, RAMP_START_RADIUS, RAMP_LENGTH] at h ⊢
  rw [abs_of_nonneg (by linarith : (0 : ℝ) ≤ r - 30 - 10),
    show -(r - 30 - 10) + r - 30 + 10 = 20 by ring]
  norm_num

theorem plateau_val :
    2 * RAMP_LENGTH / (RAMP_START_RADIUS + RAMP_LENGTH) = (1 : ℝ) / 2 := by
  simp only [RAMP_START_RADIUS, RAMP_LENGTH]
  norm_num

theorem ramp_linear (r : ℝ) (h1 : RAMP_START_RADIUS < r)
    (h2 : r < RAMP_START_RADIUS + RAMP_LENGTH) :
    ramp_then_const r RAMP_START_RADIUS RAMP_LENGTH =
      (r - RAMP_START_RADIUS) / (2 * RAMP_LENGTH) := by
  simp only [ramp_then_const, RAMP_START_RADIUS, RAMP_LENGTH] at h1 h2 ⊢
  rw [abs_of_neg (by linarith : r - 30 - 10 < (0 : ℝ)),
    show - -(r - 30 - 10) + r - 30 + 10 = 2 * (r - 30) by ring]
  rw [show (2 * (r - 30)) / (30 + 10) = (r - 30) / (2 * 10) by ring]

theorem ramp_abs_le_half (r : ℝ) (h1 : RAMP_START_RADIUS < r) :
    |ramp_then_const r RAMP_START_RADIUS RAMP_LENGTH| ≤ 1 / 2 := by
  by_cases hr : r < RAMP_START_RADIUS + RAMP_LENGTH
  · rw [ramp_linear r h1 hr]
    simp only [RAMP_START_RADIUS, RAMP_LENGTH] at h1 hr ⊢
    rw [abs_of_pos (by apply div_pos <;> [linarith; norm_num])]
    rw [div_le_iff (by norm_num : (0 : ℝ) < 2 * 10)]
    linarith
  · rw [ramp_plateau r (le_of_not_lt hr), plateau_val,
      abs_of_pos (by norm_num : (0 : ℝ) < 1 / 2)]

/-- C10: beyond `RAMP_START_RADIUS + RAMP_LENGTH` the ramp equals the
constant `2 * RAMP_LENGTH / (RAMP_START_RADIUS + RAMP_LENGTH) = 1/2`;
between `RAMP_START_RADIUS` and `RAMP_START_RADIUS + RAMP_LENGTH` it rises
linearly from 0 toward 1/2; hence the kernel's mid-range output magnitude
never exceeds half of the scaled configured force. -/
theorem c10_ramp_factors :
    (∀ r : ℝ, RAMP_START_RADIUS + RAMP_LENGTH ≤ r →
      ramp_then_const r RAMP_START_RADIUS RAMP_LENGTH =
        2 * RAMP_LENGTH / (RAMP_START_RADIUS + RAMP_LENGTH) ∧
      2 * RAMP_LENGTH / (RAMP_START_RADIUS + RAMP_LENGTH) = (1 : ℝ) / 2) ∧
    (∀ r : ℝ, RAMP_START_RADIUS < r → r < RAMP_START_RADIUS + RAMP_LENGTH →
      ramp_then_const r RAMP_START_RADIUS RAMP_LENGTH =
        (r - RAMP_START_RADIUS) / (2 * RAMP_LENGTH) ∧
      0 < (r - RAMP_START_RADIUS) / (2 * RAMP_LENGTH) ∧
      (r - RAMP_START_RADIUS) / (2 * RAMP_LENGTH) < 1 / 2) ∧
    (∀ (d : Vec2R) (R F : ℝ), RAMP_START_RADIUS < d.length → d.length < R →
      (get_dv d R F).length ≤ |F| * (1 / 2)) := by
  refine ⟨fun r h => ⟨ramp_plateau r h, plateau_val⟩, fun r h1 h2 => ?_,
    fun d R F h1 h2 => ?_⟩
  · refine ⟨ramp_linear r h1 h2, ?_, ?_⟩
    · simp only [RAMP_START_RADIUS, RAMP_LENGTH] at h1 ⊢
      apply div_pos <;> [linarith; norm_num]
    · simp only [RAMP_START_RADIUS, RAMP_LENGTH] at h1 h2 ⊢
      rw [div_lt_iff (by norm_num : (0 : ℝ) < 2 * 10)]
      linarith
  · have hlen : 0 < d.length := by
      have h30 : (0 : ℝ) < RAMP_START_RADIUS := by
        rw [RAMP_START_RADIUS]; norm_num
      linarith
    rw [get_dv]
    rw [if_pos ⟨h1, h2⟩]
    rw [Vec2R.length_smul, Vec2R.length_smul,
      Vec2R.length_normalized d hlen, one_mul]
    exact mul_le_mul_of_nonneg_left (ramp_abs_le_half _ h1) (abs_nonneg F)

/-- Witness for C10: the plateau at distance 50, the linear ramp at distance
35, and the output bound for distance `(35, 0)`, action radius 80 and scaled
force 10. -/
theorem c10_witness :
    ramp_then_const 50 RAMP_START_RADIUS RAMP_LENGTH =
        2 * RAMP_LENGTH / (RAMP_START_RADIUS + RAMP_LENGTH) ∧
      ramp_then_const 35 RAMP_START_RADIUS RAMP_LENGTH =
        (35 - RAMP_START_RADIUS) / (2 * RAMP_LENGTH) ∧
      (get_dv ⟨35, 0⟩ 80 10).length ≤ |(10 : ℝ)| * (1 / 2) := by
  refine ⟨(c10_ramp_factors.1 50 ?_).1, (c10_ramp_factors.2.1 35 ?_ ?_).1,
    c10_ramp_factors.2.2 ⟨35, 0⟩ 80 10 ?_ ?_⟩
  · rw [RAMP_START_RADIUS, RAMP_LENGTH]; norm_num
  · rw [RAMP_START_RADIUS]; norm_num
  · rw [RAMP_START_RADIUS, RAMP_LENGTH]; norm_num
  · rw [Vec2R.length_axis, RAMP_START_RADIUS]; norm_num
  · rw [Vec2R.length_axis]; norm_num

/-- C5: for every non-empty seed that does not start with `'@'`, two
invocations of `apply_seed` — with arbitrary, possibly different entropy
sources, and from prior states sharing the same class count — produce
identical particle counts for every active class and identical
parameter-matrix entries for every active class pair: the derivation is a
deterministic function of the seed text (and the active class count), for
every choice of the deterministic library functions. -/
theorem c5_seed_deterministic (L : SeedLibs) (e1 e2 : ℕ) (seed : String)
    (s1 s2 : SharedQ) (hne : seed ≠ "") (hat : seed.data.head? ≠ some '@')
    (hcc : s1.class_count = s2.class_count) :
    (∀ i, i < s1.class_count →
      (applySeedQ L e1 seed s1).particle_counts i =
        (applySeedQ L e2 seed s2).particle_counts i) ∧
    (∀ i j, i < s1.class_count → j < s1.class_count →
      (applySeedQ L e1 seed s1).param_force i j =
          (applySeedQ L e2 seed s2).param_force i j ∧
        (applySeedQ L e1 seed s1).param_radius i j =
          (applySeedQ L e2 seed s2).param_radius i j) := by
  rw [applySeedQ, applySeedQ, if_neg hne, if_neg hne, if_neg hat, if_neg hat]
  simp only [randomize, hcc]
  refine ⟨fun i hi => ?_, fun i j hi hj => ?_⟩
  · rw [if_pos hi, if_pos hi]
  · rw [if_pos ⟨hi, hj⟩, if_pos ⟨hi, hj⟩, if_pos ⟨hi, hj⟩, if_pos ⟨hi, hj⟩]
    exact ⟨rfl, rfl⟩

/-- A concrete choice of the library functions for the C5 witness. -/
def witnessLibs : SeedLibs :=
  { b64decode := fun _ => none
    hashU64 := fun _ => 0
    sample := fun _ _ => 1 / 2
    powf := fun x _ => x }

/-- Witness for C5 at the seed `"abc"`, entropy values 0 and 1 and the
default prior state. -/
theorem c5_witness :
    ("abc" : String) ≠ "" ∧ ("abc" : String).data.head? ≠ some '@' ∧
      (∀ i, i < defaultShared.class_count →
        (applySeedQ witnessLibs 0 "abc" defaultShared).particle_counts i =
          (applySeedQ witnessLibs 1 "abc" defaultShared).particle_counts i) := by
  refine ⟨by decide, by decide, ?_⟩
  exact (c5_seed_deterministic witnessLibs 0 1 "abc" defaultShared
    defaultShared (by decide) (by decide) rfl).1

/-- C9 (amended): the engine performs no index clamping; the accesses of
`move_particles` and `reset_particles` stay inside the
`[MAX_CLASSES][MAX_PARTICLE_COUNT]` tables exactly on the precondition that
the class count is at most `MAX_CLASSES` and every active class's particle
count is at most `MAX_PARTICLE_COUNT` — the precondition the UI sliders
maintain but an imported blob can violate. -/
theorem c9_in_bounds_when_clamped (cc : ℕ) (counts : ℕ → ℕ)
    (h1 : cc ≤ MAX_CLASSES)
    (h2 : ∀ c, c < cc → counts c ≤ MAX_PARTICLE_COUNT) :
    moveInBoundsB cc counts = true ∧ resetInBoundsB cc counts = true := by
  simp only [moveInBoundsB, resetInBoundsB, List.all_eq_true, List.mem_range,
    Bool.and_eq_true, decide_eq_true_eq]
  refine ⟨fun c1 hc1 c2 hc2 => ⟨⟨⟨?_, ?_⟩, fun p1 hp1 => ?_⟩, fun p2 hp2 => ?_⟩,
    fun c hc => ⟨?_, fun p hp => ?_⟩⟩
  · omega
  · omega
  · have := h2 c1 hc1; omega
  · have := h2 c2 hc2; omega
  · omega
  · have := h2 c hc; omega

/-- Witness for C9 at a concrete in-range configuration: two classes with
1200 and 3 particles. -/
theorem c9_witness :
    moveInBoundsB 2 (fun c => if c = 0 then 1200 else 3) = true ∧
      resetInBoundsB 2 (fun c => if c = 0 then 1200 else 3) = true :=
  c9_in_bounds_when_clamped 2 _ (by decide)
    (fun c _ => by by_cases h : c = 0 <;> simp [h, MAX_PARTICLE_COUNT])

/-- Counterexample for C9 as stated: importing the three-byte blob
`[132, 3, 9]` sets the class count to 9, one more than `MAX_CLASSES`, and
with that state `move_particles` indexes the parameter matrix at row 8 —
outside the `[MAX_CLASSES][MAX_CLASSES]` table; no clamping occurs. -/
theorem c9_counterexample :
    moveInBoundsB (importBytes blob9 defaultShared).class_count
      (importBytes blob9 defaultShared).particle_counts = false := by
  decide

/-- C6 exhibit: `spawn` never writes the velocity table, so the active
particle of `cs6` still has its old velocity `(1, 0)` — not the zero vector —
after `spawn`, for the concrete draw stream `rng6`. -/
theorem c6_velocity_not_zeroed :
    (spawn rng6 cs6).vel 0 0 = Vec2R.mk 1 0 ∧ Vec2R.mk 1 0 ≠ (0 : Vec2R) := by
  refine ⟨rfl, fun h => ?_⟩
  have hx := congrArg Vec2R.x h
  norm_num at hx

/-- C1 (amended): within one `(c1, c2)` pair iteration the updates of class
`c1` read a consistent snapshot — the tables as they stood when that pair's
processing began (the parallel map collects all updates before any commit);
and when at most one class is active the whole step reads start-of-step
positions.  Across pairs of one step, however, later pairs observe the
positions committed by earlier pairs (see the counterexample). -/
theorem c1_pair_snapshot :
    (∀ (dt : ℝ) (s : SimState),
      move_particles dt s = move_particles_pair_snapshot dt s) ∧
    (∀ (dt : ℝ) (s : SimState), s.class_count ≤ 1 →
      move_particles dt s = move_particles_step_snapshot dt s) := by
  constructor
  · intro dt s
    rfl
  · intro dt s hs
    interval_cases h : s.class_count
    · rw [move_particles, move_particles_step_snapshot, h]
      rfl
    · rw [move_particles, move_particles_step_snapshot, h]
      rfl

/-- Witness for C1's amended statement at the single-particle state `cs8`
(one active class). -/
theorem c1_witness :
    move_particles DT cs8 = move_particles_pair_snapshot DT cs8 ∧
      move_particles DT cs8 = move_particles_step_snapshot DT cs8 :=
  ⟨c1_pair_snapshot.1 DT cs8, c1_pair_snapshot.2 DT cs8 (by decide)⟩

/-- C3 (amended): `reset` followed by `export` yields the encoding of the
default configuration in every field except the class-count byte, which keeps
the class count held before the reset — `reset` does not touch it.  The
result therefore depends on the prior state, but only through its class
count. -/
theorem c3_reset_export (s : SharedQ) :
    exportBytes (resetQ s) = resetExportBytes s.class_count := by
  have hwr : u16LE (castU16 (resetQ s).world_radius) = [132, 3] := by
    show u16LE (castU16 DEFAULT_WORLD_RADIUS) = [132, 3]
    decide
  have hcnt : ((List.range MAX_CLASSES).map
      fun i => (resetQ s).particle_counts i % 65536) = List.replicate 8 0 := by
    apply List.ext_getElem
    · simp [MAX_CLASSES]
    · intro i h1 h2
      simp only [List.getElem_map, List.getElem_range, List.getElem_replicate]
      have hi : i < MAX_CLASSES := by
        simpa only [List.length_map, List.length_range] using h1
      show (if i < MAX_CLASSES then 0 else s.particle_counts i) % 65536 = 0
      rw [if_pos hi]
  have hent : ((List.range (MAX_CLASSES * MAX_CLASSES)).map fun e =>
      (castI8 ((resetQ s).param_force (e / MAX_CLASSES) (e % MAX_CLASSES)),
        castI8 ((resetQ s).param_radius (e / MAX_CLASSES) (e % MAX_CLASSES)))) =
      List.replicate 64 ((0 : ℤ), (80 : ℤ)) := by
    apply List.ext_getElem
    · simp [MAX_CLASSES]
    · intro e h1 h2
      simp only [List.getElem_map, List.getElem_range, List.getElem_replicate]
      have he : e < MAX_CLASSES * MAX_CLASSES := by
        simpa only [List.length_map, List.length_range] using h1
      have hd : e / MAX_CLASSES < MAX_CLASSES ∧ e % MAX_CLASSES < MAX_CLASSES := by
        refine ⟨Nat.div_lt_of_lt_mul ?_, Nat.mod_lt _ (by norm_num [MAX_CLASSES])⟩
        simpa [MAX_CLASSES] using he
      show (castI8 (if e / MAX_CLASSES < MAX_CLASSES ∧ e % MAX_CLASSES < MAX_CLASSES
            then DEFAULT_FORCE else s.param_force _ _),
          castI8 (if e / MAX_CLASSES < MAX_CLASSES ∧ e % MAX_CLASSES < MAX_CLASSES
            then DEFAULT_RADIUS else s.param_radius _ _)) = ((0 : ℤ), (80 : ℤ))
      rw [if_pos hd, if_pos hd,
        show castI8 DEFAULT_FORCE = 0 from by decide,
        show castI8 DEFAULT_RADIUS = 80 from by decide]
  have hflat1 : (List.replicate 8 0).flatMap u16LE = List.replicate 16 0 := by
    decide
  have hflat2 : (List.replicate 64 ((0 : ℤ), (80 : ℤ))).flatMap
      (fun fr => [byteOfI8 fr.1, byteOfI8 fr.2]) =
      (List.range 64).flatMap fun _ => [0, 80] := by
    decide
  have hccq : (resetQ s).class_count = s.class_count := rfl
  rw [exportBytes, hwr, hcnt, hent, hflat1, hflat2, hccq, resetExportBytes]
  simp

/-- Counterexample for C3 as stated: from two reachable states whose class
counts differ, `reset()` followed by `export()` yields two different byte
strings — the result is not independent of the state held before the
reset. -/
theorem c3_counterexample :
    exportBytes (resetQ { defaultShared with class_count := 3 }) ≠
      exportBytes (resetQ defaultShared) := by
  decide

/-! Reader lemmas for the import codec. -/

theorem readU16_none (bs : List ℕ) (p : ℕ) (h : bs.length < p + 2) :
    readU16 bs p = (none, p) := by
  rw [readU16, if_neg (by omega)]

theorem readU8_none (bs : List ℕ) (p : ℕ) (h : bs.length < p + 1) :
    readU8 bs p = (none, p) := by
  rw [readU8, if_neg (by omega)]

theorem readI8_none (bs : List ℕ) (p : ℕ) (h : bs.length < p + 1) :
    readI8 bs p = (none, p) := by
  rw [readI8, if_neg (by omega)]

theorem getD_replicate_self {α : Type} (a : α) (n i : ℕ) :
    (List.replicate n a).getD i a = a := by
  induction n generalizing i with
  | zero => simp [List.getD]
  | succ n ih =>
    cases i with
    | zero => simp [List.replicate_succ]
    | succ i' => simpa [List.replicate_succ] using ih i'

theorem readCounts_none (bs : List ℕ) (n p : ℕ) (h : bs.length ≤ p) :
    readCounts bs n p = (List.replicate n 0, p) := by
  induction n with
  | zero => rfl
  | succ n ih =>
    rw [readCounts, readU16_none bs p (by omega)]
    simp only [ih, List.replicate_succ, Option.getD_none]

theorem readEntries_none (bs : List ℕ) (n p : ℕ) (h : bs.length ≤ p) :
    readEntries bs n p = (List.replicate n ((0 : ℤ), (0 : ℤ)), p) := by
  induction n with
  | zero => rfl
  | succ n ih =>
    rw [readEntries, readI8_none bs p (by omega)]
    simp only [readI8_none bs p (by omega), ih, List.replicate_succ,
      Option.getD_none]

theorem readCounts_all (bs : List ℕ) (n : ℕ) : ∀ p, p + 2 * n ≤ bs.length →
    (readCounts bs n p).2 = p + 2 * n := by
  induction n with
  | zero => intro p _; rfl
  | succ n ih =>
    intro p h
    rw [readCounts, readU16, if_pos (by omega)]
    simp only []
    rw [ih (p + 2) (by omega)]
    omega

theorem readCounts_mixed (bs : List ℕ) (k : ℕ) : ∀ n p, k ≤ n →
    p + 2 * k = bs.length →
    (readCounts bs n p).2 = bs.length ∧
      ∀ i, k ≤ i → (readCounts bs n p).1.getD i 0 = 0 := by
  induction k with
  | zero =>
    intro n p _ h
    rw [readCounts_none bs n p (by omega)]
    exact ⟨by omega, fun i _ => getD_replicate_self 0 n i⟩
  | succ k ih =>
    intro n p hkn h
    obtain ⟨n', rfl⟩ : ∃ n', n = n' + 1 := ⟨n - 1, by omega⟩
    rw [readCounts, readU16, if_pos (by omega)]
    simp only []
    obtain ⟨hpos, hval⟩ := ih n' (p + 2) (by omega) (by omega)
    refine ⟨hpos, fun i hi => ?_⟩
    cases i with
    | zero => omega
    | succ i' =>
      simpa [List.getD_cons_succ] using hval i' (by omega)

theorem readEntries_char (bs : List ℕ) (n : ℕ) : ∀ p, p ≤ bs.length →
    ∀ e, e < n →
      (bs.length ≤ p + 2 * e →
        ((readEntries bs n p).1.getD e (0, 0)).1 = 0) ∧
      (bs.length ≤ p + 2 * e + 1 →
        ((readEntries bs n p).1.getD e (0, 0)).2 = 0) := by
  induction n with
  | zero => intro p _ e he; omega
  | succ n ih =>
    intro p hp e he
    by_cases hc1 : p + 1 ≤ bs.length
    · by_cases hc2 : p + 2 ≤ bs.length
      · -- both byte reads of the first entry succeed
        rw [readEntries, readI8, if_pos (by omega)]
        simp only []
        rw [readI8, if_pos (by omega)]
        simp only []
        cases e with
        | zero => exact ⟨fun h => by omega, fun h => by omega⟩
        | succ e' =>
          obtain ⟨hf, hr⟩ := ih (p + 2) (by omega) e' (by omega)
          refine ⟨fun h => ?_, fun h => ?_⟩
          · simpa [List.getD_cons_succ] using hf (by omega)
          · simpa [List.getD_cons_succ] using hr (by omega)
      · -- the force byte is the last one: the radius read fails at the end
        have hlen : bs.length = p + 1 := by omega
        rw [readEntries, readI8, if_pos (by omega)]
        simp only []
        rw [readI8_none bs (p + 1) (by omega)]
        simp only []
        cases e with
        | zero => exact ⟨fun h => by omega, fun _ => by simp⟩
        | succ e' =>
          obtain ⟨hf, hr⟩ := ih (p + 1) (by omega) e' (by omega)
          refine ⟨fun h => ?_, fun h => ?_⟩
          · simpa [List.getD_cons_succ] using hf (by omega)
          · simpa [List.getD_cons_succ] using hr (by omega)
    · -- the reader is exhausted: both reads fail
      have hlen : bs.length ≤ p := by omega
      rw [readEntries, readI8_none bs p (by omega)]
      simp only []
      rw [readI8_none bs p (by omega)]
      simp only []
      cases e with
      | zero => exact ⟨fun _ => by simp, fun _ => by simp⟩
      | succ e' =>
        obtain ⟨hf, hr⟩ := ih p hp e' (by omega)
        refine ⟨fun h => ?_, fun h => ?_⟩
        · simpa [List.getD_cons_succ] using hf (by omega)
        · simpa [List.getD_cons_succ] using hr (by omega)

/-- C4 (amended): `import` is a total function — it always runs to
completion — and on an input that ends at a boundary between two fields,
every field lying beyond the end independently receives its fixed fallback
value: the default world radius 900, `MAX_CLASSES` for the class count, and
zero for particle counts, matrix forces and matrix radii — for the radius
this fallback 0 is not the documented default radius 80.  (Inside a
two-byte field the fallback also fires, but the field's stray byte is then
consumed by a later one-byte read, so only truncation at field boundaries
keeps the remaining fields independent.) -/
theorem c4_truncated_defaults (bs : List ℕ) (s : SharedQ)
    (hal : fieldAligned bs.length) :
    (bs.length < 2 → (importBytes bs s).world_radius = DEFAULT_WORLD_RADIUS) ∧
    (bs.length < 3 → (importBytes bs s).class_count = MAX_CLASSES) ∧
    (∀ i, i < MAX_CLASSES → bs.length < 3 + 2 * (i + 1) →
      (importBytes bs s).particle_counts i = 0) ∧
    (∀ i j, i < MAX_CLASSES → j < MAX_CLASSES →
      (bs.length < 19 + 2 * (MAX_CLASSES * i + j) + 1 →
        (importBytes bs s).param_force i j = 0) ∧
      (bs.length < 19 + 2 * (MAX_CLASSES * i + j) + 2 →
        (importBytes bs s).param_radius i j = 0)) := by
  rcases hal with hL | hL | ⟨k, hk, hL⟩ | ⟨h19, h147⟩
  · -- empty input: everything falls back
    have e1 := readU16_none bs 0 (by omega)
    have e2 := readU8_none bs 0 (by omega)
    have e3 := readCounts_none bs MAX_CLASSES 0 (by omega)
    have e4 := readEntries_none bs (MAX_CLASSES * MAX_CLASSES) 0 (by omega)
    refine ⟨fun _ => ?_, fun _ => ?_, fun i hi _ => ?_,
      fun i j hi hj => ⟨fun _ => ?_, fun _ => ?_⟩⟩
    · simp only [importBytes, e1, e2, e3, e4, Option.getD_none]
      norm_num [DEFAULT_WORLD_RADIUS]
    · simp only [importBytes, e1, e2, e3, e4, Option.getD_none]
    · simp only [importBytes, e1, e2, e3, e4, Option.getD_none]
      rw [if_pos hi, getD_replicate_self]
    · simp only [importBytes, e1, e2, e3, e4, Option.getD_none]
      rw [if_pos ⟨hi, hj⟩, getD_replicate_self]
      norm_num
    · simp only [importBytes, e1, e2, e3, e4, Option.getD_none]
      rw [if_pos ⟨hi, hj⟩, getD_replicate_self]
      norm_num
  · -- two bytes: the world radius is present, everything else falls back
    have e1 : readU16 bs 0 = (some (bs.getD 0 0 + 256 * bs.getD 1 0), 2) := by
      rw [readU16, if_pos (by omega)]
    have e2 := readU8_none bs 2 (by omega)
    have e3 := readCounts_none bs MAX_CLASSES 2 (by omega)
    have e4 := readEntries_none bs (MAX_CLASSES * MAX_CLASSES) 2 (by omega)
    refine ⟨fun h => absurd h (by omega), fun _ => ?_, fun i hi _ => ?_,
      fun i j hi hj => ⟨fun _ => ?_, fun _ => ?_⟩⟩
    · simp only [importBytes, e1, e2, e3, e4, Option.getD_none]
    · simp only [importBytes, e1, e2, e3, e4, Option.getD_none]
      rw [if_pos hi, getD_replicate_self]
    · simp only [importBytes, e1, e2, e3, e4, Option.getD_none]
      rw [if_pos ⟨hi, hj⟩, getD_replicate_self]
      norm_num
    · simp only [importBytes, e1, e2, e3, e4, Option.getD_none]
      rw [if_pos ⟨hi, hj⟩, getD_replicate_self]
      norm_num
  · -- truncation between two particle counts: the first k counts are
    -- present, counts k.. and the whole matrix fall back
    have e1 : readU16 bs 0 = (some (bs.getD 0 0 + 256 * bs.getD 1 0), 2) := by
      rw [readU16, if_pos (by omega)]
    have e2 : readU8 bs 2 = (some (bs.getD 2 0), 3) := by
      rw [readU8, if_pos (by omega)]
    obtain ⟨e3pos, e3val⟩ :=
      readCounts_mixed bs k MAX_CLASSES 3 hk (by omega)
    have e4 := readEntries_none bs (MAX_CLASSES * MAX_CLASSES) bs.length
      (le_refl _)
    refine ⟨fun h => absurd h (by omega), fun h => absurd h (by omega),
      fun i hi h => ?_, fun i j hi hj => ⟨fun _ => ?_, fun _ => ?_⟩⟩
    · simp only [importBytes, e1, e2, e3pos]
      rw [if_pos hi]
      exact e3val i (by omega)
    · simp only [importBytes, e1, e2, e3pos, e4]
      rw [if_pos ⟨hi, hj⟩, getD_replicate_self]
      norm_num
    · simp only [importBytes, e1, e2, e3pos, e4]
      rw [if_pos ⟨hi, hj⟩, getD_replicate_self]
      norm_num
  · -- truncation inside the byte-granular matrix region
    have e1 : readU16 bs 0 = (some (bs.getD 0 0 + 256 * bs.getD 1 0), 2) := by
      rw [readU16, if_pos (by omega)]
    have e2 : readU8 bs 2 = (some (bs.getD 2 0), 3) := by
      rw [readU8, if_pos (by omega)]
    have e3 : (readCounts bs MAX_CLASSES 3).2 = 19 := by
      rw [readCounts_all bs MAX_CLASSES 3 (by simp only [MAX_CLASSES]; omega)]
      simp [MAX_CLASSES]
    refine ⟨fun h => absurd h (by omega), fun h => absurd h (by omega),
      fun i hi h => absurd h (by simp only [MAX_CLASSES] at hi; omega),
      fun i j hi hj => ⟨fun h => ?_, fun h => ?_⟩⟩
    · obtain ⟨hf, -⟩ := readEntries_char bs (MAX_CLASSES * MAX_CLASSES) 19
        (by omega) (MAX_CLASSES * i + j)
        (by simp only [MAX_CLASSES] at hi hj ⊢; omega)
      simp only [importBytes, e1, e2, e3]
      rw [if_pos ⟨hi, hj⟩, hf (by omega)]
      norm_num
    · obtain ⟨-, hr⟩ := readEntries_char bs (MAX_CLASSES * MAX_CLASSES) 19
        (by omega) (MAX_CLASSES * i + j)
        (by simp only [MAX_CLASSES] at hi hj ⊢; omega)
      simp only [importBytes, e1, e2, e3]
      rw [if_pos ⟨hi, hj⟩, hr (by omega)]
      norm_num

/-- Counterexample for C4 as stated: on the one-byte input `[3]` the class
count — a field missing from the input, since its byte sits at offset 2 of
the layout — is not assigned its default `MAX_CLASSES`: the stray byte is
consumed by the class-count read instead, yielding 3; and the matrix radius
fields fall back to 0, not to their documented default `DEFAULT_RADIUS =
80`. -/
theorem c4_counterexample :
    (importBytes [3] defaultShared).class_count = 3 ∧
      (3 : ℕ) ≠ MAX_CLASSES ∧
      (importBytes [3] defaultShared).param_radius 0 0 = 0 ∧
      (0 : ℚ) ≠ DEFAULT_RADIUS := by
  decide

/-- Witness for C4's amended statement on the two-byte input `[132, 3]`:
class count and the first matrix radius fall back (to `MAX_CLASSES` and 0
respectively). -/
theorem c4_witness :
    (importBytes [132, 3] defaultShared).class_count = MAX_CLASSES ∧
      (importBytes [132, 3] defaultShared).param_radius 0 0 = 0 := by
  have h := c4_truncated_defaults [132, 3] defaultShared
    (by unfold fieldAligned; exact Or.inr (Or.inl rfl))
  exact ⟨h.2.1 (by decide),
    (h.2.2.2 0 0 (by decide) (by decide)).2 (by decide)⟩

/-! Parsing the serialized byte vector back. -/

theorem castU16_lt (q : ℚ) : castU16 q < 65536 := by
  unfold castU16 ratTrunc
  omega

theorem castI8_bounds (q : ℚ) : -128 ≤ castI8 q ∧ castI8 q ≤ 127 := by
  unfold castI8 ratTrunc
  omega

theorem i8val_byteOfI8 (z : ℤ) (h1 : -128 ≤ z) (h2 : z ≤ 127) :
    i8val (byteOfI8 z) = z := by
  unfold i8val byteOfI8
  split_ifs <;> omega

theorem readU16_at (pre rest : List ℕ) (n : ℕ) (hn : n < 65536) :
    readU16 (pre ++ (u16LE n ++ rest)) pre.length = (some n, pre.length + 2) := by
  rw [readU16, if_pos (by simp [u16LE] <;> omega)]
  have g0 : (pre ++ (u16LE n ++ rest)).getD pre.length 0 = n % 256 := by
    rw [List.getD_append_right _ _ _ _ (le_refl _)]
    simp [u16LE]
  have g1 : (pre ++ (u16LE n ++ rest)).getD (pre.length + 1) 0 = n / 256 % 256 := by
    rw [List.getD_append_right _ _ _ _ (by omega)]
    simp [u16LE]
  rw [g0, g1]
  have : n % 256 + 256 * (n / 256 % 256) = n := by omega
  rw [this]

theorem readU8_at (pre rest : List ℕ) (b : ℕ) :
    readU8 (pre ++ (b :: rest)) pre.length = (some b, pre.length + 1) := by
  rw [readU8, if_pos (by simp <;> omega)]
  have g0 : (pre ++ (b :: rest)).getD pre.length 0 = b := by
    rw [List.getD_append_right _ _ _ _ (le_refl _)]
    simp
  rw [g0]

theorem readI8_at (pre rest : List ℕ) (b : ℕ) :
    readI8 (pre ++ (b :: rest)) pre.length = (some (i8val b), pre.length + 1) := by
  rw [readI8, if_pos (by simp <;> omega)]
  have g0 : (pre ++ (b :: rest)).getD pre.length 0 = b := by
    rw [List.getD_append_right _ _ _ _ (le_refl _)]
    simp
  rw [g0]

theorem readCounts_parse (vs : List ℕ) : ∀ pre rest : List ℕ,
    (∀ v ∈ vs, v < 65536) →
    readCounts (pre ++ (vs.flatMap u16LE ++ rest)) vs.length pre.length =
      (vs, pre.length + 2 * vs.length) := by
  induction vs with
  | nil =>
    intro pre rest _
    rfl
  | cons v vs ih =>
    intro pre rest hv
    have hassoc : pre ++ ((v :: vs).flatMap u16LE ++ rest) =
        pre ++ (u16LE v ++ (vs.flatMap u16LE ++ rest)) := by
      simp
    rw [show (v :: vs).length = vs.length + 1 from rfl, readCounts, hassoc,
      readU16_at pre (vs.flatMap u16LE ++ rest) v (hv v (by simp))]
    simp only []
    have h2 : pre ++ (u16LE v ++ (vs.flatMap u16LE ++ rest)) =
        (pre ++ u16LE v) ++ (vs.flatMap u16LE ++ rest) := by
      simp
    have h3 : pre.length + 2 = (pre ++ u16LE v).length := by
      simp [u16LE]
    rw [h2, h3, ih (pre ++ u16LE v) rest (fun w hw => hv w (by simp [hw]))]
    simp only [Option.getD_some]
    congr 1
    simp [u16LE]
    omega

theorem readEntries_parse (vs : List (ℤ × ℤ)) : ∀ pre rest : List ℕ,
    (∀ v ∈ vs, -128 ≤ v.1 ∧ v.1 ≤ 127 ∧ -128 ≤ v.2 ∧ v.2 ≤ 127) →
    readEntries
        (pre ++ (vs.flatMap (fun fr => [byteOfI8 fr.1, byteOfI8 fr.2]) ++ rest))
        vs.length pre.length =
      (vs, pre.length + 2 * vs.length) := by
  induction vs with
  | nil =>
    intro pre rest _
    rfl
  | cons v vs ih =>
    intro pre rest hv
    obtain ⟨hb1, hb2, hb3, hb4⟩ := hv v (by simp)
    have hassoc : pre ++ ((v :: vs).flatMap
          (fun fr => [byteOfI8 fr.1, byteOfI8 fr.2]) ++ rest) =
        pre ++ (byteOfI8 v.1 ::
          (byteOfI8 v.2 ::
            (vs.flatMap (fun fr => [byteOfI8 fr.1, byteOfI8 fr.2]) ++ rest))) := by
      simp
    rw [show (v :: vs).length = vs.length + 1 from rfl, readEntries, hassoc,
      readI8_at pre _ (byteOfI8 v.1)]
    simp only []
    have h2 : pre ++ (byteOfI8 v.1 :: (byteOfI8 v.2 ::
          (vs.flatMap (fun fr => [byteOfI8 fr.1, byteOfI8 fr.2]) ++ rest))) =
        (pre ++ [byteOfI8 v.1]) ++ (byteOfI8 v.2 ::
          (vs.flatMap (fun fr => [byteOfI8 fr.1, byteOfI8 fr.2]) ++ rest)) := by
      simp
    have h3 : pre.length + 1 = (pre ++ [byteOfI8 v.1]).length := by
      simp
    rw [h2, h3, readI8_at (pre ++ [byteOfI8 v.1]) _ (byteOfI8 v.2)]
    simp only []
    have h4 : (pre ++ [byteOfI8 v.1]) ++ (byteOfI8 v.2 ::
          (vs.flatMap (fun fr => [byteOfI8 fr.1, byteOfI8 fr.2]) ++ rest)) =
        ((pre ++ [byteOfI8 v.1]) ++ [byteOfI8 v.2]) ++
          (vs.flatMap (fun fr => [byteOfI8 fr.1, byteOfI8 fr.2]) ++ rest) := by
      simp
    have h5 : (pre ++ [byteOfI8 v.1]).length + 1 =
        ((pre ++ [byteOfI8 v.1]) ++ [byteOfI8 v.2]).length := by
      simp
    rw [h4, h5, ih ((pre ++ [byteOfI8 v.1]) ++ [byteOfI8 v.2]) rest
      (fun w hw => hv w (by simp [hw]))]
    simp only [Option.getD_some]
    congr 1
    · rw [i8val_byteOfI8 v.1 hb1 hb2, i8val_byteOfI8 v.2 hb3 hb4]
    · simp
      omega

theorem length_flatMap_u16LE (vs : List ℕ) :
    (vs.flatMap u16LE).length = 2 * vs.length := by
  induction vs with
  | nil => rfl
  | cons v vs ih =>
    simp only [List.flatMap_cons, List.length_append, ih, u16LE,
      List.length_cons, List.length_nil]
    omega

theorem cast_wr_close (q : ℚ) (h1 : 0 ≤ q) (h2 : q ≤ 65535) :
    |((castU16 q : ℕ) : ℚ) - q| ≤ 1 := by
  have hf0 : 0 ≤ ⌊q⌋ := Int.floor_nonneg.mpr h1
  have hf1 : ⌊q⌋ ≤ 65535 := by
    have := Int.floor_le_floor (α := ℚ) h2
    simpa using this
  have hc : ((castU16 q : ℕ) : ℚ) = ((⌊q⌋ : ℤ) : ℚ) := by
    unfold castU16 ratTrunc
    rw [if_pos h1, min_eq_right hf1, max_eq_right hf0]
    exact_mod_cast Int.toNat_of_nonneg hf0
  rw [hc, abs_le]
  constructor
  · linarith [Int.lt_floor_add_one q]
  · linarith [Int.floor_le q]

theorem castI8_close (q : ℚ) (h1 : -127 ≤ q) (h2 : q ≤ 127) :
    |((castI8 q : ℤ) : ℚ) - q| ≤ 1 := by
  by_cases h0 : 0 ≤ q
  · have hf0 : 0 ≤ ⌊q⌋ := Int.floor_nonneg.mpr h0
    have hf1 : ⌊q⌋ ≤ 127 := by
      have := Int.floor_le_floor (α := ℚ) h2
      simpa using this
    have hc : castI8 q = ⌊q⌋ := by
      unfold castI8 ratTrunc
      rw [if_pos h0, min_eq_right hf1, max_eq_right (by omega)]
    rw [hc, abs_le]
    constructor
    · linarith [Int.lt_floor_add_one q]
    · linarith [Int.floor_le q]
  · push_neg at h0
    have hq : 0 ≤ -q := by linarith
    have hf0 : 0 ≤ ⌊-q⌋ := Int.floor_nonneg.mpr hq
    have hf1 : ⌊-q⌋ ≤ 127 := by
      have := Int.floor_le_floor (α := ℚ) (show -q ≤ (127 : ℚ) by linarith)
      simpa using this
    have hc : castI8 q = -⌊-q⌋ := by
      unfold castI8 ratTrunc
      rw [if_neg (not_le.mpr h0), min_eq_right (by omega), max_eq_right (by omega)]
    rw [hc, abs_le]
    push_cast
    constructor
    · linarith [Int.floor_le (-q)]
    · linarith [Int.lt_floor_add_one (-q)]

/-- C2 (amended): an in-range configuration survives the export/import round
trip up to byte truncation: the class count and every per-class particle
count are reproduced exactly, while the world radius and every matrix force
and radius are reproduced within ±1 of their original values (the world
radius, like force and radius, goes through integer truncation, so it is
exact only when integer-valued). -/
theorem c2_export_import_roundtrip (s t : SharedQ)
    (hwr1 : MIN_WORLD_RADIUS ≤ s.world_radius)
    (hwr2 : s.world_radius ≤ MAX_WORLD_RADIUS)
    (hcc1 : MIN_CLASSES ≤ s.class_count) (hcc2 : s.class_count ≤ MAX_CLASSES)
    (hcnt : ∀ i, i < MAX_CLASSES → s.particle_counts i ≤ MAX_PARTICLE_COUNT)
    (hf : ∀ i j, i < MAX_CLASSES → j < MAX_CLASSES →
      MIN_FORCE ≤ s.param_force i j ∧ s.param_force i j ≤ MAX_FORCE)
    (hr : ∀ i j, i < MAX_CLASSES → j < MAX_CLASSES →
      MIN_RADIUS ≤ s.param_radius i j ∧ s.param_radius i j ≤ MAX_RADIUS) :
    (importBytes (exportBytes s) t).class_count = s.class_count ∧
    (∀ i, i < MAX_CLASSES →
      (importBytes (exportBytes s) t).particle_counts i =
        s.particle_counts i) ∧
    |(importBytes (exportBytes s) t).world_radius - s.world_radius| ≤ 1 ∧
    (∀ i j, i < MAX_CLASSES → j < MAX_CLASSES →
      |(importBytes (exportBytes s) t).param_force i j -
          s.param_force i j| ≤ 1 ∧
        |(importBytes (exportBytes s) t).param_radius i j -
          s.param_radius i j| ≤ 1) := by
  have e1 : readU16 (exportBytes s) 0 =
      (some (castU16 s.world_radius), 2) := by
    have h := readU16_at []
      ([s.class_count % 256] ++
        (((List.range MAX_CLASSES).map
            fun i => s.particle_counts i % 65536).flatMap u16LE ++
          ((List.range (MAX_CLASSES * MAX_CLASSES)).map fun e =>
              (castI8 (s.param_force (e / MAX_CLASSES) (e % MAX_CLASSES)),
                castI8 (s.param_radius (e / MAX_CLASSES) (e % MAX_CLASSES)))).flatMap
            fun fr => [byteOfI8 fr.1, byteOfI8 fr.2]))
      (castU16 s.world_radius) (castU16_lt _)
    simpa [exportBytes, List.append_assoc] using h
  have e2 : readU8 (exportBytes s) 2 = (some (s.class_count % 256), 3) := by
    have h := readU8_at (u16LE (castU16 s.world_radius))
      (((List.range MAX_CLASSES).map
          fun i => s.particle_counts i % 65536).flatMap u16LE ++
        ((List.range (MAX_CLASSES * MAX_CLASSES)).map fun e =>
            (castI8 (s.param_force (e / MAX_CLASSES) (e % MAX_CLASSES)),
              castI8 (s.param_radius (e / MAX_CLASSES) (e % MAX_CLASSES)))).flatMap
          fun fr => [byteOfI8 fr.1, byteOfI8 fr.2])
      (s.class_count % 256)
    simpa [exportBytes, List.append_assoc, u16LE] using h
  have e3 : readCounts (exportBytes s) MAX_CLASSES 3 =
      ((List.range MAX_CLASSES).map fun i => s.particle_counts i % 65536,
        19) := by
    have h := readCounts_parse
      ((List.range MAX_CLASSES).map fun i => s.particle_counts i % 65536)
      (u16LE (castU16 s.world_radius) ++ [s.class_count % 256])
      (((List.range (MAX_CLASSES * MAX_CLASSES)).map fun e =>
          (castI8 (s.param_force (e / MAX_CLASSES) (e % MAX_CLASSES)),
            castI8 (s.param_radius (e / MAX_CLASSES) (e % MAX_CLASSES)))).flatMap
        fun fr => [byteOfI8 fr.1, byteOfI8 fr.2])
      (by
        intro v hv
        simp only [List.mem_map] at hv
        obtain ⟨i, -, rfl⟩ := hv
        omega)
    simpa [exportBytes, List.append_assoc, u16LE, MAX_CLASSES] using h
  have e4 : readEntries (exportBytes s) (MAX_CLASSES * MAX_CLASSES) 19 =
      ((List.range (MAX_CLASSES * MAX_CLASSES)).map fun e =>
          (castI8 (s.param_force (e / MAX_CLASSES) (e % MAX_CLASSES)),
            castI8 (s.param_radius (e / MAX_CLASSES) (e % MAX_CLASSES))),
        147) := by
    have h := readEntries_parse
      ((List.range (MAX_CLASSES * MAX_CLASSES)).map fun e =>
        (castI8 (s.param_force (e / MAX_CLASSES) (e % MAX_CLASSES)),
          castI8 (s.param_radius (e / MAX_CLASSES) (e % MAX_CLASSES))))
      (u16LE (castU16 s.world_radius) ++ [s.class_count % 256] ++
        ((List.range MAX_CLASSES).map
          fun i => s.particle_counts i % 65536).flatMap u16LE)
      []
      (by
        intro v hv
        simp only [List.mem_map] at hv
        obtain ⟨e, -, rfl⟩ := hv
        exact ⟨(castI8_bounds _).1, (castI8_bounds _).2,
          (castI8_bounds _).1, (castI8_bounds _).2⟩)
    simpa [exportBytes, List.append_assoc, u16LE, length_flatMap_u16LE,
      MAX_CLASSES] using h
  simp only [MAX_CLASSES] at hcc2 hcnt
  refine ⟨?_, fun i hi => ?_, ?_, fun i j hi hj => ?_⟩
  · simp only [importBytes, e1, e2, e3, e4, Option.getD_some]
    exact Nat.mod_eq_of_lt (by omega)
  · simp only [importBytes, e1, e2, e3, e4, Option.getD_some]
    rw [if_pos hi, List.getD_eq_getElem _ _ (by simpa using hi)]
    simp only [List.getElem_map, List.getElem_range]
    have := hcnt i (by simpa [MAX_CLASSES] using hi)
    simp only [MAX_PARTICLE_COUNT] at this
    exact Nat.mod_eq_of_lt (by omega)
  · simp only [importBytes, e1, e2, e3, e4, Option.getD_some]
    apply cast_wr_close
    · simp only [MIN_WORLD_RADIUS] at hwr1
      linarith
    · simp only [MAX_WORLD_RADIUS] at hwr2
      linarith
  · have hij : MAX_CLASSES * i + j < MAX_CLASSES * MAX_CLASSES := by
      simp only [MAX_CLASSES] at hi hj ⊢
      omega
    have hdiv : (MAX_CLASSES * i + j) / MAX_CLASSES = i := by
      rw [Nat.mul_add_div (by norm_num [MAX_CLASSES]),
        Nat.div_eq_of_lt hj, Nat.add_zero]
    have hmod : (MAX_CLASSES * i + j) % MAX_CLASSES = j := by
      rw [Nat.mul_add_mod, Nat.mod_eq_of_lt hj]
    simp only [importBytes, e1, e2, e3, e4, Option.getD_some]
    rw [if_pos ⟨hi, hj⟩, if_pos ⟨hi, hj⟩,
      List.getD_eq_getElem _ _ (by simpa using hij)]
    simp only [List.getElem_map, List.getElem_range, hdiv, hmod]
    obtain ⟨hf1, hf2⟩ := hf i j hi hj
    obtain ⟨hr1, hr2⟩ := hr i j hi hj
    simp only [MIN_FORCE, MAX_FORCE] at hf1 hf2
    simp only [MIN_RADIUS, MAX_RADIUS] at hr1 hr2
    exact ⟨castI8_close _ (by linarith) (by linarith),
      castI8_close _ (by linarith) (by linarith)⟩

/-- The first serialized field parses back on its own: the restored world
radius is the `u16` truncation of the exported one. -/
theorem roundtrip_world_radius (s t : SharedQ) :
    (importBytes (exportBytes s) t).world_radius =
      ((castU16 s.world_radius : ℕ) : ℚ) := by
  have e1 : readU16 (exportBytes s) 0 =
      (some (castU16 s.world_radius), 2) := by
    have h := readU16_at []
      ([s.class_count % 256] ++
        (((List.range MAX_CLASSES).map
            fun i => s.particle_counts i % 65536).flatMap u16LE ++
          ((List.range (MAX_CLASSES * MAX_CLASSES)).map fun e =>
              (castI8 (s.param_force (e / MAX_CLASSES) (e % MAX_CLASSES)),
                castI8 (s.param_radius (e / MAX_CLASSES) (e % MAX_CLASSES)))).flatMap
            fun fr => [byteOfI8 fr.1, byteOfI8 fr.2]))
      (castU16 s.world_radius) (castU16_lt _)
    simpa [exportBytes, List.append_assoc] using h
  simp only [importBytes, e1, Option.getD_some]

theorem castU16_cs2 : castU16 cs2.world_radius = 204 := by
  have hfl : ⌊(409 / 2 : ℚ)⌋ = 204 := by
    rw [Int.floor_eq_iff]
    norm_num
  have : cs2.world_radius = 409 / 2 := rfl
  rw [castU16, ratTrunc, this, if_pos (by norm_num), hfl]
  rfl

/-- Witness for C2's amended statement at the concrete in-range state `cs2`
(the default configuration with world radius `409/2`). -/
theorem c2_witness :
    (importBytes (exportBytes cs2) cs2).class_count = cs2.class_count ∧
      |(importBytes (exportBytes cs2) cs2).world_radius -
        cs2.world_radius| ≤ 1 := by
  have h := c2_export_import_roundtrip cs2 cs2
    (by norm_num [cs2, defaultShared, MIN_WORLD_RADIUS])
    (by norm_num [cs2, defaultShared, MAX_WORLD_RADIUS])
    (by norm_num [cs2, defaultShared, MIN_CLASSES, MAX_CLASSES])
    (by norm_num [cs2, defaultShared, MAX_CLASSES])
    (fun i _ => by norm_num [cs2, defaultShared, MAX_PARTICLE_COUNT])
    (fun i j _ _ => by
      norm_num [cs2, defaultShared, DEFAULT_FORCE, MIN_FORCE, MAX_FORCE])
    (fun i j _ _ => by
      norm_num [cs2, defaultShared, DEFAULT_RADIUS, MIN_RADIUS, MAX_RADIUS])
  exact ⟨h.1, h.2.2.1⟩

/-- Counterexample for C2 as stated: the in-range state `cs2` has the
non-integer world radius `409/2 = 204.5`; `export` truncates it to the
`u16` 204, so the round trip does not reproduce the world radius exactly. -/
theorem c2_counterexample :
    (MIN_WORLD_RADIUS ≤ cs2.world_radius ∧
        cs2.world_radius ≤ MAX_WORLD_RADIUS) ∧
      (MIN_CLASSES ≤ cs2.class_count ∧ cs2.class_count ≤ MAX_CLASSES) ∧
      (∀ i, i < MAX_CLASSES → cs2.particle_counts i ≤ MAX_PARTICLE_COUNT) ∧
      (∀ i, i < MAX_CLASSES → ∀ j, j < MAX_CLASSES →
        MIN_FORCE ≤ cs2.param_force i j ∧ cs2.param_force i j ≤ MAX_FORCE ∧
          MIN_RADIUS ≤ cs2.param_radius i j ∧
          cs2.param_radius i j ≤ MAX_RADIUS) ∧
      (importBytes (exportBytes cs2) cs2).world_radius ≠ cs2.world_radius := by
  refine ⟨⟨?_, ?_⟩, ⟨?_, ?_⟩, fun i _ => ?_, fun i _ j _ => ⟨?_, ?_, ?_, ?_⟩, ?_⟩
  · norm_num [cs2, defaultShared, MIN_WORLD_RADIUS]
  · norm_num [cs2, defaultShared, MAX_WORLD_RADIUS]
  · norm_num [cs2, defaultShared, MIN_CLASSES, MAX_CLASSES]
  · norm_num [cs2, defaultShared, MAX_CLASSES]
  · norm_num [cs2, defaultShared, MAX_PARTICLE_COUNT]
  · norm_num [cs2, defaultShared, DEFAULT_FORCE, MIN_FORCE]
  · norm_num [cs2, defaultShared, DEFAULT_FORCE, MAX_FORCE]
  · norm_num [cs2, defaultShared, DEFAULT_RADIUS, MIN_RADIUS]
  · norm_num [cs2, defaultShared, DEFAULT_RADIUS, MAX_RADIUS]
  · rw [roundtrip_world_radius, castU16_cs2]
    show (204 : ℚ) ≠ cs2.world_radius
    show (204 : ℚ) ≠ 409 / 2
    norm_num

/-! One step of a single out-of-bounds particle. -/

theorem dvPairSnap_single (x y R : ℝ) (F Rd : ℕ → ℕ → ℝ) :
    dvPairSnap (singleState x y R F Rd).pos (singleState x y R F Rd) 0 0 0 =
      0 := by
  simp [dvPairSnap, singleState, List.range_succ, Vec2R.sub_self_vec,
    get_dv_zero_vec, Vec2R.zero_add_vec]

/-- C8 (amended): a single active particle at distance above the world
radius, with zero velocity and no other particle acting on it, is strictly
closer to the center after one step of the engine's fixed `DT` — the border
spring pulls it inward and nothing else moves it.  (With an arbitrary —
e.g. large outward — velocity the claim fails, see the counterexample.) -/
theorem c8_spring_moves_inward (x y R : ℝ) (F Rd : ℕ → ℕ → ℝ)
    (hR : 0 < R) (hr : R < (Vec2R.mk x y).length) :
    ((move_particles DT (singleState x y R F Rd)).pos 0 0).length <
      (Vec2R.mk x y).length := by
  set r := (Vec2R.mk x y).length with hrdef
  have hr0 : 0 < r := lt_trans hR hr
  have hmv : move_particles DT (singleState x y R F Rd) =
      pairStep DT (singleState x y R F Rd) 0 0 := rfl
  have hpos : (pairStep DT (singleState x y R F Rd) 0 0).pos 0 0 =
      newPosSnap DT (singleState x y R F Rd).pos
        (singleState x y R F Rd) 0 0 0 := rfl
  rw [hmv, hpos]
  have key : newPosSnap DT (singleState x y R F Rd).pos
      (singleState x y R F Rd) 0 0 0 =
      Vec2R.mk x y * (1 - 6 / 625 * ((r - R) / r)) := by
    rw [newPosSnap, newVelSnap, dvPairSnap_single, dvBorder]
    rw [if_pos (show (singleState x y R F Rd).world_radius ≤
        ((singleState x y R F Rd).pos 0 0).length from le_of_lt hr)]
    ext
    · simp only [singleState, Vec2R.smul_x, Vec2R.add_x, Vec2R.neg_x,
        Vec2R.zero_x, Vec2R.normalized, BORDER_FORCE, FORCE_FACTOR,
        DEFAULT_DAMPING_FACTOR, POS_FACTOR, DT]
      rw [show (Vec2R.mk x y).length = r from rfl]
      field_simp
      ring
    · simp only [singleState, Vec2R.smul_y, Vec2R.add_y, Vec2R.neg_y,
        Vec2R.zero_y, Vec2R.normalized, BORDER_FORCE, FORCE_FACTOR,
        DEFAULT_DAMPING_FACTOR, POS_FACTOR, DT]
      rw [show (Vec2R.mk x y).length = r from rfl]
      field_simp
      ring
  rw [key, Vec2R.length_smul]
  have hfrac1 : 0 < (r - R) / r := div_pos (by linarith) hr0
  have hfrac2 : (r - R) / r < 1 := (div_lt_one hr0).mpr (by linarith)
  have hc : |1 - 6 / 625 * ((r - R) / r)| < 1 := by
    rw [abs_lt]
    constructor <;> nlinarith
  have := mul_lt_mul_of_pos_left hc hr0
  calc r * |1 - 6 / 625 * ((r - R) / r)| < r * 1 := this
    _ = r := mul_one r

/-- Witness for C8's amended statement: the particle at `(1000, 0)` with zero
velocity in a world of radius 900 ends the step strictly closer to the
center. -/
theorem c8_witness :
    ((move_particles DT
        (singleState 1000 0 900 (fun _ _ => 0) (fun _ _ => 80))).pos 0
        0).length <
      (Vec2R.mk 1000 0).length := by
  refine c8_spring_moves_inward 1000 0 900 (fun _ _ => 0) (fun _ _ => 80)
    (by norm_num) ?_
  rw [Vec2R.length_axis]
  norm_num

/-- Counterexample for C8 as stated: the same particle with the outward
velocity `(1000, 0)` ends the step at `(1479.04, 0)` — farther from the
center than its starting distance 1000, so "for every velocity" fails. -/
theorem c8_counterexample :
    ¬ ((move_particles DT cs8).pos 0 0).length < (cs8.pos 0 0).length := by
  have hlen : (Vec2R.mk (1000 : ℝ) 0).length = 1000 := by
    rw [Vec2R.length_axis]; norm_num
  have hmv : move_particles DT cs8 = pairStep DT cs8 0 0 := rfl
  have hpos : (pairStep DT cs8 0 0).pos 0 0 =
      newPosSnap DT cs8.pos cs8 0 0 0 := rfl
  have hdv : dvPairSnap cs8.pos cs8 0 0 0 = 0 := by
    simp [dvPairSnap, cs8, List.range_succ, Vec2R.sub_self_vec,
      get_dv_zero_vec, Vec2R.zero_add_vec]
  have key : newPosSnap DT cs8.pos cs8 0 0 0 = Vec2R.mk (36976 / 25) 0 := by
    rw [newPosSnap, newVelSnap, hdv, dvBorder]
    rw [if_pos (show cs8.world_radius ≤ (cs8.pos 0 0).length by
      rw [show cs8.pos 0 0 = Vec2R.mk (1000 : ℝ) 0 from rfl, hlen]
      norm_num [cs8])]
    ext
    · simp only [cs8, Vec2R.smul_x, Vec2R.add_x, Vec2R.neg_x, Vec2R.zero_x,
        Vec2R.normalized, BORDER_FORCE, FORCE_FACTOR,
        DEFAULT_DAMPING_FACTOR, POS_FACTOR, DT]
      rw [show (Vec2R.mk (1000 : ℝ) 0).length = 1000 from hlen]
      norm_num
    · simp only [cs8, Vec2R.smul_y, Vec2R.add_y, Vec2R.neg_y, Vec2R.zero_y,
        Vec2R.normalized, BORDER_FORCE, FORCE_FACTOR,
        DEFAULT_DAMPING_FACTOR, POS_FACTOR, DT]
      norm_num
  intro hcon
  rw [hmv, hpos, key, show cs8.pos 0 0 = Vec2R.mk (1000 : ℝ) 0 from rfl,
    hlen, Vec2R.length_axis,
    abs_of_nonneg (by norm_num : (0 : ℝ) ≤ 36976 / 25)] at hcon
  norm_num at hcon

/-! Evaluating the kernel and the pair iterations on concrete on-axis
inputs, for the C1 counterexample. -/

theorem get_dv_mid_num (x R F : ℝ) (h1 : (30 : ℝ) < |x|) (h2 : |x| < R)
    (h3 : |x| < 40) :
    get_dv ⟨x, 0⟩ R F = ⟨x / |x| * F * ((|x| - 30) / 20), 0⟩ := by
  rw [get_dv_mid x R F (by rw [RAMP_START_RADIUS]; exact h1) h2,
    ramp_linear |x| (by rw [RAMP_START_RADIUS]; exact h1)
      (by rw [RAMP_START_RADIUS, RAMP_LENGTH]; linarith)]
  rw [RAMP_START_RADIUS, RAMP_LENGTH]
  norm_num

theorem get_dv_close_num (x R F : ℝ) (h0 : 0 < |x|) (h1 : |x| ≤ 30) :
    get_dv ⟨x, 0⟩ R F = ⟨x / |x| * (1 / 25) * (|x| / 30 - 1), 0⟩ := by
  rw [get_dv_close x R F h0 (by rw [RAMP_START_RADIUS]; exact h1),
    CLOSE_FORCE, FORCE_FACTOR, RAMP_START_RADIUS]
  ext <;> norm_num

theorem newVelSnap_eval (snap : ℕ → ℕ → Vec2R) (s : SimState) (c1 c2 : ℕ)
    (dv : Vec2R) (hc : s.particle_counts c2 = 1)
    (hdv : get_dv (snap c2 0 - s.pos c1 0) (s.param_radius c1 c2)
      (-s.param_force c1 c2 * FORCE_FACTOR) = dv)
    (hb : ¬ s.world_radius ≤ (s.pos c1 0).length) :
    newVelSnap snap s c1 c2 0 =
      (s.vel c1 0 + dv) * DEFAULT_DAMPING_FACTOR := by
  rw [newVelSnap, dvPairSnap, hc, dvBorder, if_neg hb,
    show List.range 1 = [0] from rfl, List.foldl_cons, List.foldl_nil]
  rw [hdv, Vec2R.zero_add_vec]

/-- Counterexample for C1: on the two-class state `cs1`, the code's
`move_particles` differs from the step that reads every acting position from
the start-of-step snapshot — pair `(1, 0)` of the code's step observes the
class-0 position already updated by pair `(0, 1)` of the same step. -/
theorem c1_counterexample :
    move_particles DT cs1 ≠ move_particles_step_snapshot DT cs1 := by
  -- pair (0, 0): the lone class-0 particle only sees itself and stays put
  have hdv1 : get_dv (cs1.pos 0 0 - cs1.pos 0 0) (cs1.param_radius 0 0)
      (-cs1.param_force 0 0 * FORCE_FACTOR) = 0 := by
    rw [Vec2R.sub_self_vec, get_dv_zero_vec]
  have hb1 : ¬ cs1.world_radius ≤ (cs1.pos 0 0).length := by
    rw [show cs1.pos 0 0 = (0 : Vec2R) from rfl, Vec2R.length_zero_vec,
      show cs1.world_radius = (900 : ℝ) from rfl]
    norm_num
  have hv1 : newVelSnap cs1.pos cs1 0 0 0 = 0 := by
    rw [newVelSnap_eval cs1.pos cs1 0 0 0 rfl hdv1 hb1,
      show cs1.vel 0 0 = (0 : Vec2R) from rfl]
    ext <;> simp
  have hp1 : c1s1.pos 0 0 = ⟨0, 0⟩ := by
    have h := show c1s1.pos 0 0 = newPosSnap DT cs1.pos cs1 0 0 0 from rfl
    rw [h, newPosSnap, hv1, show cs1.pos 0 0 = (⟨0, 0⟩ : Vec2R) from rfl]
    ext <;> simp
  have hv1s : c1s1.vel 0 0 = 0 := by
    rw [show c1s1.vel 0 0 = newVelSnap cs1.pos cs1 0 0 0 from rfl, hv1]
  have hp1b : c1s1.pos 1 0 = ⟨35, 0⟩ := rfl
  have hv1b : c1s1.vel 1 0 = 0 := rfl
  -- pair (0, 1): class 0 is pulled toward class 1
  have hdv2 : get_dv (c1s1.pos 1 0 - c1s1.pos 0 0) (c1s1.param_radius 0 1)
      (-c1s1.param_force 0 1 * FORCE_FACTOR) = ⟨1 / 20, 0⟩ := by
    rw [hp1b, hp1,
      show (Vec2R.mk (35 : ℝ) 0) - ⟨0, 0⟩ = ⟨35, 0⟩ from by ext <;> norm_num,
      show c1s1.param_radius 0 1 = (80 : ℝ) from rfl,
      show -c1s1.param_force 0 1 * FORCE_FACTOR = (1 / 5 : ℝ) from by
        rw [show c1s1.param_force 0 1 = (-100 : ℝ) from rfl, FORCE_FACTOR]
        norm_num]
    have habs : |(35 : ℝ)| = 35 := abs_of_pos (by norm_num)
    rw [get_dv_mid_num 35 80 (1 / 5) (by rw [habs]; norm_num)
      (by rw [habs]; norm_num) (by rw [habs]; norm_num), habs]
    ext <;> norm_num
  have hb2 : ¬ c1s1.world_radius ≤ (c1s1.pos 0 0).length := by
    rw [hp1, show c1s1.world_radius = (900 : ℝ) from rfl, Vec2R.length_axis]
    norm_num
  have hv2 : newVelSnap c1s1.pos c1s1 0 1 0 = ⟨1 / 50, 0⟩ := by
    rw [newVelSnap_eval c1s1.pos c1s1 0 1 ⟨1 / 20, 0⟩ rfl hdv2 hb2, hv1s,
      DEFAULT_DAMPING_FACTOR]
    ext <;> simp <;> norm_num
  have hp2 : c1s2.pos 0 0 = ⟨3 / 125, 0⟩ := by
    rw [show c1s2.pos 0 0 = newPosSnap DT c1s1.pos c1s1 0 1 0 from rfl,
      newPosSnap, hv2, hp1, POS_FACTOR, DT]
    ext <;> simp <;> norm_num
  have hp2b : c1s2.pos 1 0 = ⟨35, 0⟩ := rfl
  have hv2b : c1s2.vel 1 0 = 0 := rfl
  -- pair (1, 0) of the code's step: class 1 sees the already-moved class 0
  have hdv3 : get_dv (c1s2.pos 0 0 - c1s2.pos 1 0) (c1s2.param_radius 1 0)
      (-c1s2.param_force 1 0 * FORCE_FACTOR) = ⟨-311 / 6250, 0⟩ := by
    rw [hp2, hp2b,
      show (Vec2R.mk (3 / 125 : ℝ) 0) - ⟨35, 0⟩ = ⟨-4372 / 125, 0⟩ from by
        ext <;> norm_num,
      show c1s2.param_radius 1 0 = (80 : ℝ) from rfl,
      show -c1s2.param_force 1 0 * FORCE_FACTOR = (1 / 5 : ℝ) from by
        rw [show c1s2.param_force 1 0 = (-100 : ℝ) from rfl, FORCE_FACTOR]
        norm_num]
    have habs : |(-4372 / 125 : ℝ)| = 4372 / 125 := by
      rw [abs_of_neg (by norm_num : (-4372 / 125 : ℝ) < 0)]
      norm_num
    rw [get_dv_mid_num (-4372 / 125) 80 (1 / 5) (by rw [habs]; norm_num)
      (by rw [habs]; norm_num) (by rw [habs]; norm_num), habs]
    ext <;> norm_num
  have hb3 : ¬ c1s2.world_radius ≤ (c1s2.pos 1 0).length := by
    rw [hp2b, show c1s2.world_radius = (900 : ℝ) from rfl, Vec2R.length_axis]
    rw [abs_of_pos (by norm_num : (0 : ℝ) < 35)]
    norm_num
  have hv3 : newVelSnap c1s2.pos c1s2 1 0 0 = ⟨-311 / 15625, 0⟩ := by
    rw [newVelSnap_eval c1s2.pos c1s2 1 0 ⟨-311 / 6250, 0⟩ rfl hdv3 hb3,
      hv2b, DEFAULT_DAMPING_FACTOR]
    ext <;> simp <;> norm_num
  have hp3 : c1s3.pos 1 0 = ⟨2732509 / 78125, 0⟩ := by
    rw [show c1s3.pos 1 0 = newPosSnap DT c1s2.pos c1s2 1 0 0 from rfl,
      newPosSnap, hv3, hp2b, POS_FACTOR, DT]
    ext <;> simp <;> norm_num
  have hv3s : c1s3.vel 1 0 = ⟨-311 / 15625, 0⟩ := by
    rw [show c1s3.vel 1 0 = newVelSnap c1s2.pos c1s2 1 0 0 from rfl, hv3]
  -- pair (1, 1) of the code's step: class 1 only sees itself and damps
  have hdv4 : get_dv (c1s3.pos 1 0 - c1s3.pos 1 0) (c1s3.param_radius 1 1)
      (-c1s3.param_force 1 1 * FORCE_FACTOR) = 0 := by
    rw [Vec2R.sub_self_vec, get_dv_zero_vec]
  have hb4 : ¬ c1s3.world_radius ≤ (c1s3.pos 1 0).length := by
    rw [hp3, show c1s3.world_radius = (900 : ℝ) from rfl, Vec2R.length_axis]
    rw [abs_of_pos (by norm_num : (0 : ℝ) < 2732509 / 78125)]
    norm_num
  have hv4 : newVelSnap c1s3.pos c1s3 1 1 0 = ⟨-622 / 78125, 0⟩ := by
    rw [newVelSnap_eval c1s3.pos c1s3 1 1 0 rfl hdv4 hb4, hv3s,
      DEFAULT_DAMPING_FACTOR]
    ext <;> simp <;> norm_num
  have hp4 : c1s4.pos 1 0 = ⟨13658813 / 390625, 0⟩ := by
    rw [show c1s4.pos 1 0 = newPosSnap DT c1s3.pos c1s3 1 1 0 from rfl,
      newPosSnap, hv4, hp3, POS_FACTOR, DT]
    ext <;> simp <;> norm_num
  -- pair (0, 1) of the snapshot step coincides in value with the code's
  have hdvT2 : get_dv (cs1.pos 1 0 - c1s1.pos 0 0) (c1s1.param_radius 0 1)
      (-c1s1.param_force 0 1 * FORCE_FACTOR) = ⟨1 / 20, 0⟩ := by
    rw [show cs1.pos 1 0 = (⟨35, 0⟩ : Vec2R) from rfl, hp1,
      show (Vec2R.mk (35 : ℝ) 0) - ⟨0, 0⟩ = ⟨35, 0⟩ from by ext <;> norm_num,
      show c1s1.param_radius 0 1 = (80 : ℝ) from rfl,
      show -c1s1.param_force 0 1 * FORCE_FACTOR = (1 / 5 : ℝ) from by
        rw [show c1s1.param_force 0 1 = (-100 : ℝ) from rfl, FORCE_FACTOR]
        norm_num]
    have habs : |(35 : ℝ)| = 35 := abs_of_pos (by norm_num)
    rw [get_dv_mid_num 35 80 (1 / 5) (by rw [habs]; norm_num)
      (by rw [habs]; norm_num) (by rw [habs]; norm_num), habs]
    ext <;> norm_num
  have hvT2 : newVelSnap cs1.pos c1s1 0 1 0 = ⟨1 / 50, 0⟩ := by
    rw [newVelSnap_eval cs1.pos c1s1 0 1 ⟨1 / 20, 0⟩ rfl hdvT2 hb2, hv1s,
      DEFAULT_DAMPING_FACTOR]
    ext <;> simp <;> norm_num
  have hpT2b : c1t2.pos 1 0 = ⟨35, 0⟩ := rfl
  have hvT2b : c1t2.vel 1 0 = 0 := rfl
  -- pair (1, 0) of the snapshot step: class 1 sees class 0 at its
  -- start-of-step position, the origin
  have hdvT3 : get_dv (cs1.pos 0 0 - c1t2.pos 1 0) (c1t2.param_radius 1 0)
      (-c1t2.param_force 1 0 * FORCE_FACTOR) = ⟨-1 / 20, 0⟩ := by
    rw [show cs1.pos 0 0 = (⟨0, 0⟩ : Vec2R) from rfl, hpT2b,
      show (Vec2R.mk (0 : ℝ) 0) - ⟨35, 0⟩ = ⟨-35, 0⟩ from by ext <;> norm_num,
      show c1t2.param_radius 1 0 = (80 : ℝ) from rfl,
      show -c1t2.param_force 1 0 * FORCE_FACTOR = (1 / 5 : ℝ) from by
        rw [show c1t2.param_force 1 0 = (-100 : ℝ) from rfl, FORCE_FACTOR]
        norm_num]
    have habs : |(-35 : ℝ)| = 35 := by
      rw [abs_of_neg (by norm_num : (-35 : ℝ) < 0)]
      norm_num
    rw [get_dv_mid_num (-35) 80 (1 / 5) (by rw [habs]; norm_num)
      (by rw [habs]; norm_num) (by rw [habs]; norm_num), habs]
    ext <;> norm_num
  have hbT3 : ¬ c1t2.world_radius ≤ (c1t2.pos 1 0).length := by
    rw [hpT2b, show c1t2.world_radius = (900 : ℝ) from rfl, Vec2R.length_axis]
    rw [abs_of_pos (by norm_num : (0 : ℝ) < 35)]
    norm_num
  have hvT3 : newVelSnap cs1.pos c1t2 1 0 0 = ⟨-1 / 50, 0⟩ := by
    rw [newVelSnap_eval cs1.pos c1t2 1 0 ⟨-1 / 20, 0⟩ rfl hdvT3 hbT3,
      hvT2b, DEFAULT_DAMPING_FACTOR]
    ext <;> simp <;> norm_num
  have hpT3 : c1t3.pos 1 0 = ⟨4372 / 125, 0⟩ := by
    rw [show c1t3.pos 1 0 = newPosSnap DT cs1.pos c1t2 1 0 0 from rfl,
      newPosSnap, hvT3, hpT2b, POS_FACTOR, DT]
    ext <;> simp <;> norm_num
  have hvT3s : c1t3.vel 1 0 = ⟨-1 / 50, 0⟩ := by
    rw [show c1t3.vel 1 0 = newVelSnap cs1.pos c1t2 1 0 0 from rfl, hvT3]
  -- pair (1, 1) of the snapshot step: class 1 sees its own start-of-step
  -- position 0.024 away and feels the close-range repulsion
  have hdvT4 : get_dv (cs1.pos 1 0 - c1t3.pos 1 0) (c1t3.param_radius 1 1)
      (-c1t3.param_force 1 1 * FORCE_FACTOR) = ⟨-1249 / 31250, 0⟩ := by
    rw [show cs1.pos 1 0 = (⟨35, 0⟩ : Vec2R) from rfl, hpT3,
      show (Vec2R.mk (35 : ℝ) 0) - ⟨4372 / 125, 0⟩ = ⟨3 / 125, 0⟩ from by
        ext <;> norm_num,
      show c1t3.param_radius 1 1 = (80 : ℝ) from rfl,
      show -c1t3.param_force 1 1 * FORCE_FACTOR = (1 / 5 : ℝ) from by
        rw [show c1t3.param_force 1 1 = (-100 : ℝ) from rfl, FORCE_FACTOR]
        norm_num]
    have habs : |(3 / 125 : ℝ)| = 3 / 125 := abs_of_pos (by norm_num)
    rw [get_dv_close_num (3 / 125) 80 (1 / 5) (by rw [habs]; norm_num)
      (by rw [habs]; norm_num), habs]
    ext <;> norm_num
  have hbT4 : ¬ c1t3.world_radius ≤ (c1t3.pos 1 0).length := by
    rw [hpT3, show c1t3.world_radius = (900 : ℝ) from rfl, Vec2R.length_axis]
    rw [abs_of_pos (by norm_num : (0 : ℝ) < 4372 / 125)]
    norm_num
  have hvT4 : newVelSnap cs1.pos c1t3 1 1 0 = ⟨-1874 / 78125, 0⟩ := by
    rw [newVelSnap_eval cs1.pos c1t3 1 1 ⟨-1249 / 31250, 0⟩ rfl hdvT4 hbT4,
      hvT3s, DEFAULT_DAMPING_FACTOR]
    ext <;> simp <;> norm_num
  have hpT4 : c1t4.pos 1 0 = ⟨13651256 / 390625, 0⟩ := by
    rw [show c1t4.pos 1 0 = newPosSnap DT cs1.pos c1t3 1 1 0 from rfl,
      newPosSnap, hvT4, hpT3, POS_FACTOR, DT]
    ext <;> simp <;> norm_num
  -- the two final positions of the class-1 particle differ
  intro hcon
  have hL : (move_particles DT cs1).pos 1 0 = ⟨13658813 / 390625, 0⟩ := by
    rw [show move_particles DT cs1 = c1s4 from rfl]
    exact hp4
  have hR : (move_particles_step_snapshot DT cs1).pos 1 0 =
      ⟨13651256 / 390625, 0⟩ := by
    rw [show move_particles_step_snapshot DT cs1 = c1t4 from rfl]
    exact hpT4
  rw [hcon, hR] at hL
  have hx := congrArg Vec2R.x hL
  norm_num at hx

end Smarticles
